import Mathlib

/-!
Verification of the pony-poker session state machine and vote-aggregation
engine.  The definitions below are a shallow embedding of the server source
(`createApp` / `handleMessage` / `handleDisconnect` and the vote-analysis
helpers).  JavaScript `Record` objects are modelled as association lists in
insertion order; iteration over numeric object keys (which JavaScript performs
in ascending numeric order) is modelled by sorting the distinct keys; the
`uuidv4()` calls are modelled by an explicit `fresh : String` parameter; the
WebSocket sends/broadcasts are modelled by an explicit list of `Output`s.
-/

namespace PonyPoker

/-- `'player' | 'observer'` -/
inductive Role where
  | player
  | observer
deriving DecidableEq, Repr

/-- `interface User` -/
structure User where
  id : String
  name : String
  role : Role
deriving DecidableEq, Repr

/-- `interface Ticket`; `votes: Record<string, number | null>` becomes an
association list in insertion order. -/
structure Ticket where
  id : String
  title : String
  description : String
  votes : List (String × Option Nat)
  revealed : Bool
deriving DecidableEq, Repr

/-- `interface TeamSession` -/
structure TeamSession where
  code : String
  users : List User
  tickets : List Ticket
  selectedTicketId : Option String
  votingRevealed : Bool
deriving DecidableEq, Repr

/-- `interface VoteAnalysis`; the `distribution` record with numeric keys is
modelled as an association list in ascending key order (JavaScript's iteration
order for integer-like keys). -/
structure VoteAnalysis where
  consensus : Bool
  mode : Option Nat
  median : ℚ
  distribution : List (Nat × List String)
  recommendedPoint : Nat
deriving DecidableEq, Repr

/-- `const POINT_VALUES = [1, 2, 3, 5, 8, 13]` -/
def POINT_VALUES : List Nat := [1, 2, 3, 5, 8, 13]

/-- One step of the loop in `roundToNearestPoint`: replace the current
`(closest, minDiff)` only on a strictly smaller distance. -/
def roundStep (value : ℚ) (st : Nat × ℚ) (point : Nat) : Nat × ℚ :=
  let diff := |value - (point : ℚ)|
  if diff < st.2 then (point, diff) else st

/-- `function roundToNearestPoint(value)`: scan `POINT_VALUES`, keeping the
current best and replacing it only on a strictly smaller distance. -/
def roundToNearestPoint (value : ℚ) : Nat :=
  let first := POINT_VALUES.headD 0
  (POINT_VALUES.foldl (roundStep value) (first, |value - (first : ℚ)|)).1

/-- The median computation of `analyzeVotes` on the ascending-sorted value
list: middle element for odd length, mean of the two middle elements for even
length. -/
def medianFormula (s : List Nat) : ℚ :=
  let mid := s.length / 2
  if s.length % 2 = 0 then ((s.getD (mid - 1) 0 : ℚ) + (s.getD mid 0 : ℚ)) / 2
  else (s.getD mid 0 : ℚ)

/-- The distinct vote values in ascending order: the iteration order of the
numeric-keyed `distribution` object built by `analyzeVotes`. -/
def distinctValsAsc (votes : List (String × Nat)) : List Nat :=
  ((votes.map (·.2)).dedup).insertionSort (· ≤ ·)

/-- The voter ids recorded under key `v` of the `distribution` object
(in insertion order, which is the order of `votes`). -/
def votersFor (votes : List (String × Nat)) (v : Nat) : List String :=
  (votes.filter (fun e => e.2 == v)).map (·.1)

/-- One step of the mode-finding loop of `analyzeVotes`: replace the current
`(mode, maxCount)` only on a strictly greater count. -/
def modeStep (st : Option Nat × Nat) (e : Nat × Nat) : Option Nat × Nat :=
  if e.2 > st.2 then (some e.1, e.2) else st

/-- The `(mode, maxCount)` pair computed by the loop in `analyzeVotes`,
scanning the distribution entries in ascending key order. -/
def modeMax (votes : List (String × Nat)) : Option Nat × Nat :=
  ((distinctValsAsc votes).map (fun v => (v, (votersFor votes v).length))).foldl
    modeStep (none, 0)

/-- The body of `analyzeVotes` after the counted `(userId, value)` pairs have
been extracted. -/
def analyzeVotesCounted (votes : List (String × Nat)) : VoteAnalysis :=
  if votes.isEmpty then
    { consensus := false, mode := none, median := 0, distribution := [],
      recommendedPoint := 0 }
  else
    let dist := (distinctValsAsc votes).map (fun v => (v, votersFor votes v))
    let consensus := dist.length == 1
    let mode := (modeMax votes).1
    let maxCount := (modeMax votes).2
    let sortedValues := (votes.map (·.2)).insertionSort (· ≤ ·)
    let median := medianFormula sortedValues
    let recommendedPoint :=
      if consensus then mode.getD 0
      else if mode.isSome ∧ ((votes.length : ℚ) / 2 < (maxCount : ℚ)) then
        mode.getD 0
      else roundToNearestPoint median
    { consensus := consensus, mode := mode, median := median,
      distribution := dist, recommendedPoint := recommendedPoint }

/-- `session.users.filter(u => u.role === 'player').map(u => u.id)` -/
def playerIds (session : TeamSession) : List String :=
  (session.users.filter (fun u => u.role == Role.player)).map (·.id)

/-- The counted `(userId, value)` pairs of `analyzeVotes`: non-null vote
entries whose user currently holds the player role, in insertion order. -/
def countedVotes (ticket : Ticket) (session : TeamSession) :
    List (String × Nat) :=
  ticket.votes.filterMap (fun e =>
    match e.2 with
    | some n => if (playerIds session).contains e.1 then some (e.1, n) else none
    | none => none)

/-- `function analyzeVotes(ticket, session)` -/
def analyzeVotes (ticket : Ticket) (session : TeamSession) : VoteAnalysis :=
  analyzeVotesCounted (countedVotes ticket session)

/-- `function getPlayerCount(session)` -/
def getPlayerCount (session : TeamSession) : Nat :=
  (session.users.filter (fun u => u.role == Role.player)).length

/-- `function getVoteCount(ticket, session)` -/
def getVoteCount (ticket : Ticket) (session : TeamSession) : Nat :=
  (ticket.votes.filter
    (fun e => (playerIds session).contains e.1 && e.2.isSome)).length

/-- `function calculateAverage(ticket)`: mean of all non-null vote values,
rounded to one decimal place (`Math.round(x * 10) / 10`; `Math.round` rounds
half toward positive infinity, as does `round` on `ℚ`). -/
def calculateAverage (ticket : Ticket) : ℚ :=
  let values : List Nat := ticket.votes.filterMap (·.2)
  if values.length = 0 then 0
  else (round (((values.sum : ℚ) / (values.length : ℚ)) * 10) : ℚ) / 10

example : (analyzeVotesCounted [("a", 5), ("b", 5), ("c", 5)]).consensus = true := by decide
example : (analyzeVotesCounted [("a", 1), ("b", 2), ("c", 2), ("d", 3)]).mode = some 2 := by decide
example : (analyzeVotesCounted []).recommendedPoint = 0 := by decide
example : (analyzeVotesCounted [("a", 2), ("b", 1), ("c", 2), ("d", 1), ("e", 3)]).mode = some 1 := by decide

/-! ## The wire protocol and the server state -/

/-- `type ClientMessage` -/
inductive ClientMessage where
  | join (teamCode name : String) (role : Role) (userId : Option String)
  | addTicket (title description : String)
  | selectTicket (ticketId : String)
  | vote (points : Nat)
  | revealVotes
  | resetVotes
  | leave
deriving DecidableEq, Repr

/-- `type ServerMessage` -/
inductive ServerMessage where
  | sessionState (session : TeamSession) (userId : String)
  | userJoined (user : User)
  | userLeft (userId : String)
  | ticketAdded (ticket : Ticket)
  | ticketSelected (ticket : Ticket) (votedCount totalPlayers : Nat)
  | voteReceived (ticketId : String) (votedCount totalPlayers : Nat)
      (voterId : String)
  | votesRevealed (ticket : Ticket) (average : ℚ) (analysis : VoteAnalysis)
  | votesReset (ticketId : String)
  | error (message : String)
deriving DecidableEq, Repr

/-- An outbound delivery: either `ws.send` to one connection, or
`broadcast(sessionCode, message, wss, excludeWs?)` to every connection of the
session (minus the optionally excluded one). -/
inductive Output where
  | send (conn : Nat) (msg : ServerMessage)
  | broadcast (code : String) (msg : ServerMessage) (exclude : Option Nat)
deriving DecidableEq, Repr

/-- `clientSessions` entry: the `(sessionCode, userId)` association of a
connection. -/
structure ConnInfo where
  sessionCode : String
  userId : String
deriving DecidableEq, Repr

/-- The module-level mutable state: `sessions` (record keyed by team code) and
`clientSessions` (map keyed by connection; connections are modelled as
naturals). -/
structure ServerState where
  sessions : String → Option TeamSession
  conns : Nat → Option ConnInfo

/-- Update the `sessions` record at one code (JavaScript assignment or
`delete`). -/
def setSession (f : String → Option TeamSession) (code : String)
    (v : Option TeamSession) : String → Option TeamSession :=
  fun c => if c = code then v else f c

/-- Update the `clientSessions` map at one connection (`set` or `delete`). -/
def setConn (f : Nat → Option ConnInfo) (ws : Nat) (v : Option ConnInfo) :
    Nat → Option ConnInfo :=
  fun c => if c = ws then v else f c

/-- The state at process start: no sessions, no connection associations. -/
def initialState : ServerState :=
  { sessions := fun _ => none, conns := fun _ => none }

/-- In-place update of the first user whose `id` matches (the JS
`session.users.find(...)` followed by field assignments). -/
def updateFirstUser : List User → String → String → Role → List User
  | [], _, _, _ => []
  | u :: rest, uid, n, r =>
    if u.id = uid then { u with name := n, role := r } :: rest
    else u :: updateFirstUser rest uid n r

/-- In-place update of the first ticket whose `id` matches (the JS
`session.tickets.find(...)` followed by mutation of the found object). -/
def updateFirstTicket : List Ticket → String → (Ticket → Ticket) → List Ticket
  | [], _, _ => []
  | t :: rest, tid, f =>
    if t.id = tid then f t :: rest else t :: updateFirstTicket rest tid f

/-- `ticket.votes[userId] = points` on a JavaScript object: overwrite in place
when the key exists, append otherwise. -/
def setVote : List (String × Option Nat) → String → Nat →
    List (String × Option Nat)
  | [], uid, p => [(uid, some p)]
  | e :: rest, uid, p =>
    if e.1 = uid then (e.1, some p) :: rest else e :: setVote rest uid p

/-- A session as freshly created by the `join` handler for an unknown code. -/
def emptySession (code : String) : TeamSession :=
  { code := code, users := [], tickets := [], selectedTicketId := none,
    votingRevealed := false }

/-! ## The command handlers (`handleMessage` / `handleDisconnect`)

Each fallible handler returns `none` exactly where the JavaScript code would
throw a `TypeError` (accessing `.users` of an `undefined` session); the
`ws.on('message')` wrapper catches that and answers
`error "Invalid message format"` (see `handle`). -/

/-- The `case 'join'` branch.  `userId ? ... : undefined` treats the empty
string as absent (JavaScript falsiness). -/
def joinHandler (st : ServerState) (ws : Nat) (fresh : String)
    (teamCode name : String) (role : Role) (userId : Option String) :
    ServerState × List Output :=
  let session0 := (st.sessions teamCode).getD (emptySession teamCode)
  let found : Option User :=
    match userId with
    | some uid =>
      if uid = "" then none else session0.users.find? (fun u => u.id == uid)
    | none => none
  match found with
  | some u0 =>
    let u : User := { u0 with name := name, role := role }
    let session1 :=
      { session0 with users := updateFirstUser session0.users u0.id name role }
    ({ sessions := setSession st.sessions teamCode (some session1),
       conns := setConn st.conns ws
         (some { sessionCode := teamCode, userId := u.id }) },
     [Output.send ws (ServerMessage.sessionState session1 u.id),
      Output.broadcast teamCode (ServerMessage.userJoined u) (some ws)])
  | none =>
    let newUser : User := { id := fresh, name := name, role := role }
    match session0.users.find? (fun u => u.name == name) with
    | some removed =>
      let users1 := session0.users.eraseP (fun u => u.name == name)
      let session1 := { session0 with users := users1 ++ [newUser] }
      ({ sessions := setSession st.sessions teamCode (some session1),
         conns := setConn st.conns ws
           (some { sessionCode := teamCode, userId := newUser.id }) },
       [Output.broadcast teamCode (ServerMessage.userLeft removed.id) (some ws),
        Output.send ws (ServerMessage.sessionState session1 newUser.id),
        Output.broadcast teamCode (ServerMessage.userJoined newUser) (some ws)])
    | none =>
      let session1 := { session0 with users := session0.users ++ [newUser] }
      ({ sessions := setSession st.sessions teamCode (some session1),
         conns := setConn st.conns ws
           (some { sessionCode := teamCode, userId := newUser.id }) },
       [Output.send ws (ServerMessage.sessionState session1 newUser.id),
        Output.broadcast teamCode (ServerMessage.userJoined newUser) (some ws)])

/-- `function handleDisconnect(ws, wss)` (also the `case 'leave'` branch). -/
def handleDisconnect (st : ServerState) (ws : Nat) :
    ServerState × List Output :=
  match st.conns ws with
  | none => (st, [])
  | some ci =>
    let pair : (String → Option TeamSession) × List Output :=
      match st.sessions ci.sessionCode with
      | none => (st.sessions, [])
      | some session =>
        let found := session.users.find? (fun u => u.id == ci.userId)
        let users1 :=
          match found with
          | some _ => session.users.eraseP (fun u => u.id == ci.userId)
          | none => session.users
        let outs : List Output :=
          match found with
          | some _ =>
            [Output.broadcast ci.sessionCode
              (ServerMessage.userLeft ci.userId) none]
          | none => []
        if users1.isEmpty then
          (setSession st.sessions ci.sessionCode none, outs)
        else
          (setSession st.sessions ci.sessionCode
            (some { session with users := users1 }), outs)
    ({ sessions := pair.1, conns := setConn st.conns ws none }, pair.2)

/-- The `case 'addTicket'` branch. -/
def addTicketHandler (st : ServerState) (ws : Nat) (fresh : String)
    (title description : String) : Option (ServerState × List Output) :=
  match st.conns ws with
  | none =>
    some (st, [Output.send ws (ServerMessage.error "Not in a session")])
  | some ci =>
    match st.sessions ci.sessionCode with
    | none => none
    | some session =>
      match session.users.find? (fun u => u.id == ci.userId) with
      | some u =>
        if u.role = Role.observer then
          let ticket : Ticket :=
            { id := fresh, title := title, description := description,
              votes := [], revealed := false }
          let session1 :=
            { session with tickets := session.tickets ++ [ticket] }
          some ({ st with
                  sessions := setSession st.sessions ci.sessionCode
                    (some session1) },
                [Output.broadcast ci.sessionCode
                  (ServerMessage.ticketAdded ticket) none])
        else
          some (st, [Output.send ws
            (ServerMessage.error "Only observers can add tickets")])
      | none =>
        some (st, [Output.send ws
          (ServerMessage.error "Only observers can add tickets")])

/-- The `case 'selectTicket'` branch. -/
def selectTicketHandler (st : ServerState) (ws : Nat) (ticketId : String) :
    Option (ServerState × List Output) :=
  match st.conns ws with
  | none =>
    some (st, [Output.send ws (ServerMessage.error "Not in a session")])
  | some ci =>
    match st.sessions ci.sessionCode with
    | none => none
    | some session =>
      match session.users.find? (fun u => u.id == ci.userId) with
      | some u =>
        if u.role = Role.observer then
          match session.tickets.find? (fun t => t.id == ticketId) with
          | none =>
            some (st, [Output.send ws
              (ServerMessage.error "Ticket not found")])
          | some ticket =>
            let session1 :=
              { session with selectedTicketId := some ticketId,
                             votingRevealed := ticket.revealed }
            let votedCount := getVoteCount ticket session1
            let totalPlayers := getPlayerCount session1
            some ({ st with
                    sessions := setSession st.sessions ci.sessionCode
                      (some session1) },
                  [Output.broadcast ci.sessionCode
                    (ServerMessage.ticketSelected ticket votedCount
                      totalPlayers) none])
        else
          some (st, [Output.send ws
            (ServerMessage.error "Only observers can select tickets")])
      | none =>
        some (st, [Output.send ws
          (ServerMessage.error "Only observers can select tickets")])

/-- The `case 'vote'` branch, including the auto-reveal rule. -/
def voteHandler (st : ServerState) (ws : Nat) (points : Nat) :
    Option (ServerState × List Output) :=
  match st.conns ws with
  | none =>
    some (st, [Output.send ws (ServerMessage.error "Not in a session")])
  | some ci =>
    match st.sessions ci.sessionCode with
    | none => none
    | some session =>
      match session.users.find? (fun u => u.id == ci.userId) with
      | none =>
        some (st, [Output.send ws
          (ServerMessage.error "Only players can vote")])
      | some u =>
        if u.role = Role.player then
          match session.selectedTicketId with
          | none =>
            some (st, [Output.send ws
              (ServerMessage.error "No ticket selected")])
          | some sid =>
            if POINT_VALUES.contains points then
              match session.tickets.find? (fun t => t.id == sid) with
              | none =>
                some (st, [Output.send ws
                  (ServerMessage.error "Ticket not found")])
              | some ticket =>
                let addV : Ticket → Ticket := fun t =>
                  { t with votes := setVote t.votes ci.userId points }
                let ticket1 := addV ticket
                let session1 :=
                  { session with
                    tickets := updateFirstTicket session.tickets sid addV }
                let votedCount := getVoteCount ticket1 session1
                let totalPlayers := getPlayerCount session1
                let received := Output.broadcast ci.sessionCode
                  (ServerMessage.voteReceived ticket1.id votedCount
                    totalPlayers ci.userId) none
                if votedCount = totalPlayers ∧ totalPlayers > 0 then
                  let rev : Ticket → Ticket := fun t =>
                    { t with revealed := true }
                  let ticket2 := rev ticket1
                  let session2 :=
                    { session1 with
                      votingRevealed := true,
                      tickets := updateFirstTicket session1.tickets sid rev }
                  some ({ st with
                          sessions := setSession st.sessions ci.sessionCode
                            (some session2) },
                        [received,
                         Output.broadcast ci.sessionCode
                           (ServerMessage.votesRevealed ticket2
                             (calculateAverage ticket2)
                             (analyzeVotes ticket2 session2)) none])
                else
                  some ({ st with
                          sessions := setSession st.sessions ci.sessionCode
                            (some session1) },
                        [received])
            else
              some (st, [Output.send ws
                (ServerMessage.error "Invalid point value")])
        else
          some (st, [Output.send ws
            (ServerMessage.error "Only players can vote")])

/-- The `case 'revealVotes'` branch. -/
def revealVotesHandler (st : ServerState) (ws : Nat) :
    Option (ServerState × List Output) :=
  match st.conns ws with
  | none =>
    some (st, [Output.send ws (ServerMessage.error "Not in a session")])
  | some ci =>
    match st.sessions ci.sessionCode with
    | none => none
    | some session =>
      match session.users.find? (fun u => u.id == ci.userId) with
      | none =>
        some (st, [Output.send ws
          (ServerMessage.error "Only observers can reveal votes")])
      | some u =>
        if u.role = Role.observer then
          match session.selectedTicketId with
          | none =>
            some (st, [Output.send ws
              (ServerMessage.error "No ticket selected")])
          | some sid =>
            match session.tickets.find? (fun t => t.id == sid) with
            | none =>
              some (st, [Output.send ws
                (ServerMessage.error "Ticket not found")])
            | some ticket =>
              let rev : Ticket → Ticket := fun t => { t with revealed := true }
              let ticket1 := rev ticket
              let session1 :=
                { session with
                  votingRevealed := true,
                  tickets := updateFirstTicket session.tickets sid rev }
              some ({ st with
                      sessions := setSession st.sessions ci.sessionCode
                        (some session1) },
                    [Output.broadcast ci.sessionCode
                      (ServerMessage.votesRevealed ticket1
                        (calculateAverage ticket1)
                        (analyzeVotes ticket1 session1)) none])
        else
          some (st, [Output.send ws
            (ServerMessage.error "Only observers can reveal votes")])

/-- The `case 'resetVotes'` branch. -/
def resetVotesHandler (st : ServerState) (ws : Nat) :
    Option (ServerState × List Output) :=
  match st.conns ws with
  | none =>
    some (st, [Output.send ws (ServerMessage.error "Not in a session")])
  | some ci =>
    match st.sessions ci.sessionCode with
    | none => none
    | some session =>
      match session.users.find? (fun u => u.id == ci.userId) with
      | none =>
        some (st, [Output.send ws
          (ServerMessage.error "Only observers can reset votes")])
      | some u =>
        if u.role = Role.observer then
          match session.selectedTicketId with
          | none =>
            some (st, [Output.send ws
              (ServerMessage.error "No ticket selected")])
          | some sid =>
            match session.tickets.find? (fun t => t.id == sid) with
            | none =>
              some (st, [Output.send ws
                (ServerMessage.error "Ticket not found")])
            | some ticket =>
              let clr : Ticket → Ticket := fun t =>
                { t with votes := [], revealed := false }
              let session1 :=
                { session with
                  votingRevealed := false,
                  tickets := updateFirstTicket session.tickets sid clr }
              some ({ st with
                      sessions := setSession st.sessions ci.sessionCode
                        (some session1) },
                    [Output.broadcast ci.sessionCode
                      (ServerMessage.votesReset ticket.id) none])
        else
          some (st, [Output.send ws
            (ServerMessage.error "Only observers can reset votes")])

/-- `function handleMessage(ws, message, wss)`: the switch over the command
type.  `none` marks a thrown `TypeError`. -/
def handleMessage (st : ServerState) (ws : Nat) (fresh : String) :
    ClientMessage → Option (ServerState × List Output)
  | ClientMessage.join teamCode name role userId =>
    some (joinHandler st ws fresh teamCode name role userId)
  | ClientMessage.leave => some (handleDisconnect st ws)
  | ClientMessage.addTicket title description =>
    addTicketHandler st ws fresh title description
  | ClientMessage.selectTicket ticketId => selectTicketHandler st ws ticketId
  | ClientMessage.vote points => voteHandler st ws points
  | ClientMessage.revealVotes => revealVotesHandler st ws
  | ClientMessage.resetVotes => resetVotesHandler st ws

/-- The `ws.on('message')` wrapper: `handleMessage` inside `try`/`catch`, the
catch answering `error "Invalid message format"` to the sender only. -/
def handle (st : ServerState) (ws : Nat) (fresh : String)
    (msg : ClientMessage) : ServerState × List Output :=
  (handleMessage st ws fresh msg).getD
    (st, [Output.send ws (ServerMessage.error "Invalid message format")])

/-- The states reachable from process start by any sequence of commands and
disconnects. -/
inductive Reachable : ServerState → Prop where
  | init : Reachable initialState
  | msg {st} (h : Reachable st) (ws : Nat) (fresh : String)
      (m : ClientMessage) : Reachable (handle st ws fresh m).1
  | disc {st} (h : Reachable st) (ws : Nat) :
      Reachable (handleDisconnect st ws).1

/-! ## Lemmas about the mode-finding loop of `analyzeVotes` -/

theorem foldl_modeStep_of_le (l : List (Nat × Nat)) (st : Option Nat × Nat)
    (h : ∀ e ∈ l, e.2 ≤ st.2) : l.foldl modeStep st = st := by
  induction l with
  | nil => rfl
  | cons a t ih =>
    have ha : ¬(a.2 > st.2) := not_lt.mpr (h a (by simp))
    simp only [List.foldl_cons, modeStep, if_neg ha]
    exact ih fun e he => h e (by simp [he])

theorem foldl_modeStep_mem (l : List (Nat × Nat)) (st : Option Nat × Nat) :
    l.foldl modeStep st = st ∨
      ∃ e ∈ l, l.foldl modeStep st = (some e.1, e.2) := by
  induction l generalizing st with
  | nil => left; rfl
  | cons a t ih =>
    simp only [List.foldl_cons]
    rcases ih (modeStep st a) with h | ⟨e, he, h⟩
    · by_cases hc : a.2 > st.2
      · right
        refine ⟨a, by simp, ?_⟩
        rw [h]; simp [modeStep, hc]
      · left
        rw [h]; simp [modeStep, hc]
    · right
      exact ⟨e, by simp [he], h⟩

theorem foldl_modeStep_first (pre : List (Nat × Nat)) (v c : Nat)
    (post : List (Nat × Nat)) (hc : 0 < c) (hpre : ∀ e ∈ pre, e.2 < c)
    (hpost : ∀ e ∈ post, e.2 ≤ c) :
    ((pre ++ (v, c) :: post).foldl modeStep (none, 0)) = (some v, c) := by
  rw [List.foldl_append]
  have h1 : (pre.foldl modeStep (none, 0)).2 < c := by
    rcases foldl_modeStep_mem pre (none, 0) with h | ⟨e, he, h⟩
    · rw [h]; exact hc
    · rw [h]; exact hpre e he
  rw [List.foldl_cons]
  have h2 : modeStep (pre.foldl modeStep (none, 0)) (v, c) = (some v, c) := by
    simp [modeStep, h1]
  rw [h2]
  exact foldl_modeStep_of_le post (some v, c) hpost

/-! ## Counting lemmas -/

theorem votersFor_length (votes : List (String × Nat)) (v : Nat) :
    (votersFor votes v).length = (votes.map (·.2)).count v := by
  simp only [votersFor, List.length_map, List.count, List.countP_map,
    ← List.countP_eq_length_filter]
  rfl

theorem mem_distinctValsAsc (votes : List (String × Nat)) (v : Nat) :
    v ∈ distinctValsAsc votes ↔ v ∈ votes.map (·.2) := by
  rw [distinctValsAsc, (List.perm_insertionSort _ _).mem_iff, List.mem_dedup]

theorem distinctValsAsc_sorted (votes : List (String × Nat)) :
    (distinctValsAsc votes).Sorted (· ≤ ·) :=
  List.sorted_insertionSort _ _

theorem distinctValsAsc_nodup (votes : List (String × Nat)) :
    (distinctValsAsc votes).Nodup :=
  (List.perm_insertionSort _ _).nodup_iff.mpr ((votes.map (·.2)).nodup_dedup)

/-- A nonempty list has a first element whose `f`-image attains the bound. -/
theorem exists_first_max (l : List Nat) (f : Nat → Nat) (M : Nat)
    (hex : ∃ v ∈ l, f v = M) :
    ∃ pre v post, l = pre ++ v :: post ∧ f v = M ∧ ∀ w ∈ pre, f w ≠ M := by
  induction l with
  | nil => simp at hex
  | cons a t ih =>
    by_cases ha : f a = M
    · exact ⟨[], a, t, rfl, ha, by simp⟩
    · obtain ⟨v, hv, hfv⟩ := hex
      have hv' : v ∈ t := by
        rcases List.mem_cons.mp hv with rfl | hvt
        · exact absurd hfv ha
        · exact hvt
      obtain ⟨pre, w, post, heq, hfw, hpre⟩ := ih ⟨v, hv', hfv⟩
      refine ⟨a :: pre, w, post, by rw [heq]; rfl, hfw, ?_⟩
      intro x hx
      rcases List.mem_cons.mp hx with rfl | hxp
      · exact ha
      · exact hpre x hxp

/-- A nonempty list of naturals has a maximal `f`-image. -/
theorem exists_max_val (l : List Nat) (f : Nat → Nat) (hne : l ≠ []) :
    ∃ M, (∃ v ∈ l, f v = M) ∧ ∀ v ∈ l, f v ≤ M := by
  induction l with
  | nil => exact absurd rfl hne
  | cons a t ih =>
    rcases eq_or_ne t [] with rfl | htne
    · exact ⟨f a, ⟨a, by simp, rfl⟩, by simp⟩
    · obtain ⟨M, ⟨v, hv, hfv⟩, hub⟩ := ih htne
      rcases le_or_lt (f a) M with hle | hlt
      · refine ⟨M, ⟨v, by simp [hv], hfv⟩, ?_⟩
        intro w hw
        rcases List.mem_cons.mp hw with rfl | hwt
        · exact hle
        · exact hub w hwt
      · refine ⟨f a, ⟨a, by simp, rfl⟩, ?_⟩
        intro w hw
        rcases List.mem_cons.mp hw with rfl | hwt
        · exact le_rfl
        · exact le_of_lt (lt_of_le_of_lt (hub w hwt) hlt)

/-- Characterisation of the `(mode, maxCount)` pair: the mode is a counted
value of maximal multiplicity, and among the values of maximal multiplicity it
is the numerically smallest. -/
theorem modeMax_spec (votes : List (String × Nat)) (hne : votes ≠ []) :
    ∃ m, (modeMax votes).1 = some m ∧
      (modeMax votes).2 = (votes.map (·.2)).count m ∧
      m ∈ votes.map (·.2) ∧
      (∀ v ∈ votes.map (·.2),
        (votes.map (·.2)).count v ≤ (votes.map (·.2)).count m) ∧
      (∀ v ∈ votes.map (·.2),
        (votes.map (·.2)).count v = (votes.map (·.2)).count m → m ≤ v) := by
  set vals := votes.map (·.2) with hvals
  set dv := distinctValsAsc votes with hdv
  have hdvne : dv ≠ [] := by
    intro h0
    rcases List.exists_mem_of_ne_nil votes hne with ⟨e, he⟩
    have : e.2 ∈ dv := (mem_distinctValsAsc votes e.2).mpr
      (List.mem_map_of_mem _ he)
    rw [h0] at this
    exact List.not_mem_nil _ this
  obtain ⟨M, hexM, hubM⟩ := exists_max_val dv (fun v => vals.count v) hdvne
  obtain ⟨pre, v, post, hsplit, hfv, hpre⟩ :=
    exists_first_max dv (fun v => vals.count v) M hexM
  have hvdv : v ∈ dv := by rw [hsplit]; simp
  have hvvals : v ∈ vals := (mem_distinctValsAsc votes v).mp hvdv
  have hMpos : 0 < M := by
    rw [← hfv]
    exact List.count_pos_iff.mpr hvvals
  have hentry : (fun w => (w, (votersFor votes w).length)) =
      fun w => (w, vals.count w) := by
    funext w
    rw [votersFor_length]
  have hmm : modeMax votes = (some v, M) := by
    rw [modeMax, ← hdv, hentry, hsplit, List.map_append, List.map_cons, hfv]
    refine foldl_modeStep_first _ _ _ _ hMpos ?_ ?_
    · intro e he
      simp only [List.mem_map] at he
      obtain ⟨w, hw, rfl⟩ := he
      exact lt_of_le_of_ne
        (hubM w (by rw [hsplit]; exact List.mem_append_left _ hw)) (hpre w hw)
    · intro e he
      simp only [List.mem_map] at he
      obtain ⟨w, hw, rfl⟩ := he
      exact hubM w (by rw [hsplit]; simp [hw])
  refine ⟨v, by rw [hmm], by rw [hmm, hfv], hvvals, ?_, ?_⟩
  · intro w hw
    rw [hfv]
    exact hubM w ((mem_distinctValsAsc votes w).mpr hw)
  · intro w hw hcnt
    have hwdv : w ∈ dv := (mem_distinctValsAsc votes w).mpr hw
    rw [hsplit] at hwdv
    rcases List.mem_append.mp hwdv with hwpre | hwvp
    · exact absurd (hcnt.trans hfv) (hpre w hwpre)
    · have hsorted := distinctValsAsc_sorted votes
      rw [← hdv, hsplit] at hsorted
      rcases List.mem_cons.mp hwvp with rfl | hwpost
      · exact le_rfl
      · have := (List.pairwise_append.mp hsorted).2.1
        exact (List.pairwise_cons.mp this).1 w hwpost

/-- Two distinct values cannot each account for more than half of a list. -/
theorem count_add_count_le {α : Type} [DecidableEq α] (l : List α) (a b : α)
    (hab : a ≠ b) : l.count a + l.count b ≤ l.length := by
  induction l with
  | nil => simp
  | cons c t ih =>
    simp only [List.count_cons, List.length_cons, beq_iff_eq]
    by_cases h1 : a = c <;> by_cases h2 : b = c
    · exact absurd (h1.trans h2.symm) hab
    · rw [if_pos h1.symm, if_neg fun h => h2 h.symm]; omega
    · rw [if_neg fun h => h1 h.symm, if_pos h2.symm]; omega
    · rw [if_neg fun h => h1 h.symm, if_neg fun h => h2 h.symm]; omega

/-! ## Lemmas about `roundToNearestPoint` -/

/-- The point-scale value `r` is nearest to `q`, with a distance tie between
two scale values resolved to the lower one. -/
def NearestScaleLowerTie (r : Nat) (q : ℚ) : Prop :=
  r ∈ POINT_VALUES ∧
  (∀ p ∈ POINT_VALUES, |q - (r : ℚ)| ≤ |q - (p : ℚ)|) ∧
  (∀ p ∈ POINT_VALUES, |q - (p : ℚ)| = |q - (r : ℚ)| → r ≤ p)

theorem abs_near_lt (q a b : ℚ) (hab : a < b) (h : a + b < 2 * q) :
    |q - b| < |q - a| := by
  have ha : 0 < q - a := by linarith
  rw [abs_of_pos ha, abs_lt]
  constructor <;> linarith

theorem abs_near_le (q a b : ℚ) (hab : a ≤ b) (h : 2 * q ≤ a + b) :
    |q - a| ≤ |q - b| := by
  have hb : q - b ≤ 0 := by linarith
  rw [abs_of_nonpos hb, abs_le]
  constructor <;> linarith

theorem abs_near_eq (q a b : ℚ) (hab : a < b) (h : |q - a| = |q - b|) :
    2 * q = a + b := by
  rcases abs_eq_abs.mp h with h1 | h1 <;> linarith

theorem roundStep_replace (q : ℚ) (st : Nat × ℚ) (p : Nat)
    (h : |q - (p : ℚ)| < st.2) : roundStep q st p = (p, |q - (p : ℚ)|) := by
  simp [roundStep, h]

theorem roundStep_keep (q : ℚ) (st : Nat × ℚ) (p : Nat)
    (h : ¬(|q - (p : ℚ)| < st.2)) : roundStep q st p = st := by
  simp [roundStep, h]

theorem roundToNearestPoint_unfold (q : ℚ) :
    roundToNearestPoint q =
      (roundStep q (roundStep q (roundStep q (roundStep q (roundStep q
        (roundStep q (1, |q - ((1 : Nat) : ℚ)|) 1) 2) 3) 5) 8) 13).1 := by
  simp only [roundToNearestPoint, POINT_VALUES, List.headD_cons,
    List.foldl_cons, List.foldl_nil]

theorem roundToNearestPoint_eq_one (q : ℚ) (h : 2 * q ≤ 3) :
    roundToNearestPoint q = 1 := by
  rw [roundToNearestPoint_unfold,
    roundStep_keep q (1, |q - ((1 : Nat) : ℚ)|) 1 (lt_irrefl _),
    roundStep_keep q (1, |q - ((1 : Nat) : ℚ)|) 2 (not_lt.mpr (abs_near_le q _ _ (by norm_num)
      (by push_cast; linarith))),
    roundStep_keep q (1, |q - ((1 : Nat) : ℚ)|) 3 (not_lt.mpr (abs_near_le q _ _ (by norm_num)
      (by push_cast; linarith))),
    roundStep_keep q (1, |q - ((1 : Nat) : ℚ)|) 5 (not_lt.mpr (abs_near_le q _ _ (by norm_num)
      (by push_cast; linarith))),
    roundStep_keep q (1, |q - ((1 : Nat) : ℚ)|) 8 (not_lt.mpr (abs_near_le q _ _ (by norm_num)
      (by push_cast; linarith))),
    roundStep_keep q (1, |q - ((1 : Nat) : ℚ)|) 13 (not_lt.mpr (abs_near_le q _ _ (by norm_num)
      (by push_cast; linarith)))]

theorem roundToNearestPoint_eq_two (q : ℚ) (h1 : 3 < 2 * q)
    (h2 : 2 * q ≤ 5) :
    roundToNearestPoint q = 2 := by
  rw [roundToNearestPoint_unfold,
    roundStep_keep q (1, |q - ((1 : Nat) : ℚ)|) 1 (lt_irrefl _),
    roundStep_replace q (1, |q - ((1 : Nat) : ℚ)|) 2 (by
      show |q - ((2 : Nat) : ℚ)| < |q - ((1 : Nat) : ℚ)|
      exact abs_near_lt q _ _ (by norm_num) (by push_cast; linarith)),
    roundStep_keep q (2, |q - ((2 : Nat) : ℚ)|) 3 (not_lt.mpr (abs_near_le q _ _ (by norm_num)
      (by push_cast; linarith))),
    roundStep_keep q (2, |q - ((2 : Nat) : ℚ)|) 5 (not_lt.mpr (abs_near_le q _ _ (by norm_num)
      (by push_cast; linarith))),
    roundStep_keep q (2, |q - ((2 : Nat) : ℚ)|) 8 (not_lt.mpr (abs_near_le q _ _ (by norm_num)
      (by push_cast; linarith))),
    roundStep_keep q (2, |q - ((2 : Nat) : ℚ)|) 13 (not_lt.mpr (abs_near_le q _ _ (by norm_num)
      (by push_cast; linarith)))]

theorem roundToNearestPoint_eq_three (q : ℚ) (h1 : 5 < 2 * q)
    (h2 : 2 * q ≤ 8) :
    roundToNearestPoint q = 3 := by
  rw [roundToNearestPoint_unfold,
    roundStep_keep q (1, |q - ((1 : Nat) : ℚ)|) 1 (lt_irrefl _),
    roundStep_replace q (1, |q - ((1 : Nat) : ℚ)|) 2 (by
      show |q - ((2 : Nat) : ℚ)| < |q - ((1 : Nat) : ℚ)|
      exact abs_near_lt q _ _ (by norm_num) (by push_cast; linarith)),
    roundStep_replace q (2, |q - ((2 : Nat) : ℚ)|) 3 (by
      show |q - ((3 : Nat) : ℚ)| < |q - ((2 : Nat) : ℚ)|
      exact abs_near_lt q _ _ (by norm_num) (by push_cast; linarith)),
    roundStep_keep q (3, |q - ((3 : Nat) : ℚ)|) 5 (not_lt.mpr (abs_near_le q _ _ (by norm_num)
      (by push_cast; linarith))),
    roundStep_keep q (3, |q - ((3 : Nat) : ℚ)|) 8 (not_lt.mpr (abs_near_le q _ _ (by norm_num)
      (by push_cast; linarith))),
    roundStep_keep q (3, |q - ((3 : Nat) : ℚ)|) 13 (not_lt.mpr (abs_near_le q _ _ (by norm_num)
      (by push_cast; linarith)))]

theorem roundToNearestPoint_eq_five (q : ℚ) (h1 : 8 < 2 * q)
    (h2 : 2 * q ≤ 13) :
    roundToNearestPoint q = 5 := by
  rw [roundToNearestPoint_unfold,
    roundStep_keep q (1, |q - ((1 : Nat) : ℚ)|) 1 (lt_irrefl _),
    roundStep_replace q (1, |q - ((1 : Nat) : ℚ)|) 2 (by
      show |q - ((2 : Nat) : ℚ)| < |q - ((1 : Nat) : ℚ)|
      exact abs_near_lt q _ _ (by norm_num) (by push_cast; linarith)),
    roundStep_replace q (2, |q - ((2 : Nat) : ℚ)|) 3 (by
      show |q - ((3 : Nat) : ℚ)| < |q - ((2 : Nat) : ℚ)|
      exact abs_near_lt q _ _ (by norm_num) (by push_cast; linarith)),
    roundStep_replace q (3, |q - ((3 : Nat) : ℚ)|) 5 (by
      show |q - ((5 : Nat) : ℚ)| < |q - ((3 : Nat) : ℚ)|
      exact abs_near_lt q _ _ (by norm_num) (by push_cast; linarith)),
    roundStep_keep q (5, |q - ((5 : Nat) : ℚ)|) 8 (not_lt.mpr (abs_near_le q _ _ (by norm_num)
      (by push_cast; linarith))),
    roundStep_keep q (5, |q - ((5 : Nat) : ℚ)|) 13 (not_lt.mpr (abs_near_le q _ _ (by norm_num)
      (by push_cast; linarith)))]

theorem roundToNearestPoint_eq_eight (q : ℚ) (h1 : 13 < 2 * q)
    (h2 : 2 * q ≤ 21) :
    roundToNearestPoint q = 8 := by
  rw [roundToNearestPoint_unfold,
    roundStep_keep q (1, |q - ((1 : Nat) : ℚ)|) 1 (lt_irrefl _),
    roundStep_replace q (1, |q - ((1 : Nat) : ℚ)|) 2 (by
      show |q - ((2 : Nat) : ℚ)| < |q - ((1 : Nat) : ℚ)|
      exact abs_near_lt q _ _ (by norm_num) (by push_cast; linarith)),
    roundStep_replace q (2, |q - ((2 : Nat) : ℚ)|) 3 (by
      show |q - ((3 : Nat) : ℚ)| < |q - ((2 : Nat) : ℚ)|
      exact abs_near_lt q _ _ (by norm_num) (by push_cast; linarith)),
    roundStep_replace q (3, |q - ((3 : Nat) : ℚ)|) 5 (by
      show |q - ((5 : Nat) : ℚ)| < |q - ((3 : Nat) : ℚ)|
      exact abs_near_lt q _ _ (by norm_num) (by push_cast; linarith)),
    roundStep_replace q (5, |q - ((5 : Nat) : ℚ)|) 8 (by
      show |q - ((8 : Nat) : ℚ)| < |q - ((5 : Nat) : ℚ)|
      exact abs_near_lt q _ _ (by norm_num) (by push_cast; linarith)),
    roundStep_keep q (8, |q - ((8 : Nat) : ℚ)|) 13 (not_lt.mpr (abs_near_le q _ _ (by norm_num)
      (by push_cast; linarith)))]

theorem roundToNearestPoint_eq_thirteen (q : ℚ) (h1 : 21 < 2 * q) :
    roundToNearestPoint q = 13 := by
  rw [roundToNearestPoint_unfold,
    roundStep_keep q (1, |q - ((1 : Nat) : ℚ)|) 1 (lt_irrefl _),
    roundStep_replace q (1, |q - ((1 : Nat) : ℚ)|) 2 (by
      show |q - ((2 : Nat) : ℚ)| < |q - ((1 : Nat) : ℚ)|
      exact abs_near_lt q _ _ (by norm_num) (by push_cast; linarith)),
    roundStep_replace q (2, |q - ((2 : Nat) : ℚ)|) 3 (by
      show |q - ((3 : Nat) : ℚ)| < |q - ((2 : Nat) : ℚ)|
      exact abs_near_lt q _ _ (by norm_num) (by push_cast; linarith)),
    roundStep_replace q (3, |q - ((3 : Nat) : ℚ)|) 5 (by
      show |q - ((5 : Nat) : ℚ)| < |q - ((3 : Nat) : ℚ)|
      exact abs_near_lt q _ _ (by norm_num) (by push_cast; linarith)),
    roundStep_replace q (5, |q - ((5 : Nat) : ℚ)|) 8 (by
      show |q - ((8 : Nat) : ℚ)| < |q - ((5 : Nat) : ℚ)|
      exact abs_near_lt q _ _ (by norm_num) (by push_cast; linarith)),
    roundStep_replace q (8, |q - ((8 : Nat) : ℚ)|) 13 (by
      show |q - ((13 : Nat) : ℚ)| < |q - ((8 : Nat) : ℚ)|
      exact abs_near_lt q _ _ (by norm_num) (by push_cast; linarith))]


theorem abs_near_le2 (q a b : ℚ) (hab : a ≤ b) (h : a + b ≤ 2 * q) :
    |q - b| ≤ |q - a| := by
  have ha : 0 ≤ q - a := by linarith
  rw [abs_of_nonneg ha, abs_le]
  constructor <;> linarith

theorem nearestLowerTie_one (q : ℚ) (h1 : 2 * q ≤ 3) :
    NearestScaleLowerTie 1 q := by
  refine ⟨by decide, ?_, ?_⟩
  · intro p hp
    simp only [POINT_VALUES, List.mem_cons, List.not_mem_nil, or_false] at hp
    rcases hp with rfl | rfl | rfl | rfl | rfl | rfl <;> push_cast <;>
      first
        | exact le_refl _
        | exact abs_near_le2 q _ _ (by norm_num) (by linarith)
        | exact abs_near_le q _ _ (by norm_num) (by linarith)
  · intro p hp heq
    simp only [POINT_VALUES, List.mem_cons, List.not_mem_nil, or_false] at hp
    rcases hp with rfl | rfl | rfl | rfl | rfl | rfl <;> push_cast at heq
    · norm_num
    · norm_num
    · norm_num
    · norm_num
    · norm_num
    · norm_num

theorem nearestLowerTie_two (q : ℚ) (h1 : 3 < 2 * q)
    (h2 : 2 * q ≤ 5) :
    NearestScaleLowerTie 2 q := by
  refine ⟨by decide, ?_, ?_⟩
  · intro p hp
    simp only [POINT_VALUES, List.mem_cons, List.not_mem_nil, or_false] at hp
    rcases hp with rfl | rfl | rfl | rfl | rfl | rfl <;> push_cast <;>
      first
        | exact le_refl _
        | exact abs_near_le2 q _ _ (by norm_num) (by linarith)
        | exact abs_near_le q _ _ (by norm_num) (by linarith)
  · intro p hp heq
    simp only [POINT_VALUES, List.mem_cons, List.not_mem_nil, or_false] at hp
    rcases hp with rfl | rfl | rfl | rfl | rfl | rfl <;> push_cast at heq
    · have h3 := abs_near_eq q _ _ (by norm_num) heq
      linarith
    · norm_num
    · norm_num
    · norm_num
    · norm_num
    · norm_num

theorem nearestLowerTie_three (q : ℚ) (h1 : 5 < 2 * q)
    (h2 : 2 * q ≤ 8) :
    NearestScaleLowerTie 3 q := by
  refine ⟨by decide, ?_, ?_⟩
  · intro p hp
    simp only [POINT_VALUES, List.mem_cons, List.not_mem_nil, or_false] at hp
    rcases hp with rfl | rfl | rfl | rfl | rfl | rfl <;> push_cast <;>
      first
        | exact le_refl _
        | exact abs_near_le2 q _ _ (by norm_num) (by linarith)
        | exact abs_near_le q _ _ (by norm_num) (by linarith)
  · intro p hp heq
    simp only [POINT_VALUES, List.mem_cons, List.not_mem_nil, or_false] at hp
    rcases hp with rfl | rfl | rfl | rfl | rfl | rfl <;> push_cast at heq
    · have h3 := abs_near_eq q _ _ (by norm_num) heq
      linarith
    · have h3 := abs_near_eq q _ _ (by norm_num) heq
      linarith
    · norm_num
    · norm_num
    · norm_num
    · norm_num

theorem nearestLowerTie_five (q : ℚ) (h1 : 8 < 2 * q)
    (h2 : 2 * q ≤ 13) :
    NearestScaleLowerTie 5 q := by
  refine ⟨by decide, ?_, ?_⟩
  · intro p hp
    simp only [POINT_VALUES, List.mem_cons, List.not_mem_nil, or_false] at hp
    rcases hp with rfl | rfl | rfl | rfl | rfl | rfl <;> push_cast <;>
      first
        | exact le_refl _
        | exact abs_near_le2 q _ _ (by norm_num) (by linarith)
        | exact abs_near_le q _ _ (by norm_num) (by linarith)
  · intro p hp heq
    simp only [POINT_VALUES, List.mem_cons, List.not_mem_nil, or_false] at hp
    rcases hp with rfl | rfl | rfl | rfl | rfl | rfl <;> push_cast at heq
    · have h3 := abs_near_eq q _ _ (by norm_num) heq
      linarith
    · have h3 := abs_near_eq q _ _ (by norm_num) heq
      linarith
    · have h3 := abs_near_eq q _ _ (by norm_num) heq
      linarith
    · norm_num
    · norm_num
    · norm_num

theorem nearestLowerTie_eight (q : ℚ) (h1 : 13 < 2 * q)
    (h2 : 2 * q ≤ 21) :
    NearestScaleLowerTie 8 q := by
  refine ⟨by decide, ?_, ?_⟩
  · intro p hp
    simp only [POINT_VALUES, List.mem_cons, List.not_mem_nil, or_false] at hp
    rcases hp with rfl | rfl | rfl | rfl | rfl | rfl <;> push_cast <;>
      first
        | exact le_refl _
        | exact abs_near_le2 q _ _ (by norm_num) (by linarith)
        | exact abs_near_le q _ _ (by norm_num) (by linarith)
  · intro p hp heq
    simp only [POINT_VALUES, List.mem_cons, List.not_mem_nil, or_false] at hp
    rcases hp with rfl | rfl | rfl | rfl | rfl | rfl <;> push_cast at heq
    · have h3 := abs_near_eq q _ _ (by norm_num) heq
      linarith
    · have h3 := abs_near_eq q _ _ (by norm_num) heq
      linarith
    · have h3 := abs_near_eq q _ _ (by norm_num) heq
      linarith
    · have h3 := abs_near_eq q _ _ (by norm_num) heq
      linarith
    · norm_num
    · norm_num

theorem nearestLowerTie_thirteen (q : ℚ) (h1 : 21 < 2 * q) :
    NearestScaleLowerTie 13 q := by
  refine ⟨by decide, ?_, ?_⟩
  · intro p hp
    simp only [POINT_VALUES, List.mem_cons, List.not_mem_nil, or_false] at hp
    rcases hp with rfl | rfl | rfl | rfl | rfl | rfl <;> push_cast <;>
      first
        | exact le_refl _
        | exact abs_near_le2 q _ _ (by norm_num) (by linarith)
        | exact abs_near_le q _ _ (by norm_num) (by linarith)
  · intro p hp heq
    simp only [POINT_VALUES, List.mem_cons, List.not_mem_nil, or_false] at hp
    rcases hp with rfl | rfl | rfl | rfl | rfl | rfl <;> push_cast at heq
    · have h3 := abs_near_eq q _ _ (by norm_num) heq
      linarith
    · have h3 := abs_near_eq q _ _ (by norm_num) heq
      linarith
    · have h3 := abs_near_eq q _ _ (by norm_num) heq
      linarith
    · have h3 := abs_near_eq q _ _ (by norm_num) heq
      linarith
    · have h3 := abs_near_eq q _ _ (by norm_num) heq
      linarith
    · norm_num

/-- `roundToNearestPoint` returns the scale value nearest to its argument,
resolving a distance tie to the lower scale value. -/
theorem roundToNearestPoint_nearest (q : ℚ) :
    NearestScaleLowerTie (roundToNearestPoint q) q := by
  rcases le_or_lt (2 * q) 3 with h1 | h1
  · rw [roundToNearestPoint_eq_one q h1]
    exact nearestLowerTie_one q h1
  rcases le_or_lt (2 * q) 5 with h2 | h2
  · rw [roundToNearestPoint_eq_two q h1 h2]
    exact nearestLowerTie_two q h1 h2
  rcases le_or_lt (2 * q) 8 with h3 | h3
  · rw [roundToNearestPoint_eq_three q h2 h3]
    exact nearestLowerTie_three q h2 h3
  rcases le_or_lt (2 * q) 13 with h4 | h4
  · rw [roundToNearestPoint_eq_five q h3 h4]
    exact nearestLowerTie_five q h3 h4
  rcases le_or_lt (2 * q) 21 with h5 | h5
  · rw [roundToNearestPoint_eq_eight q h4 h5]
    exact nearestLowerTie_eight q h4 h5
  rw [roundToNearestPoint_eq_thirteen q h5]
  exact nearestLowerTie_thirteen q h5

/-! ## Unfolding `analyzeVotesCounted` on a nonempty vote list -/

theorem analyzeVotesCounted_fields (votes : List (String × Nat))
    (hne : votes ≠ []) :
    analyzeVotesCounted votes =
      { consensus := (distinctValsAsc votes).length == 1,
        mode := (modeMax votes).1,
        median := medianFormula ((votes.map (·.2)).insertionSort (· ≤ ·)),
        distribution :=
          (distinctValsAsc votes).map (fun v => (v, votersFor votes v)),
        recommendedPoint :=
          if (distinctValsAsc votes).length == 1 then (modeMax votes).1.getD 0
          else if (modeMax votes).1.isSome ∧
              ((votes.length : ℚ) / 2 < ((modeMax votes).2 : ℚ)) then
            (modeMax votes).1.getD 0
          else
            roundToNearestPoint
              (medianFormula ((votes.map (·.2)).insertionSort (· ≤ ·))) } := by
  simp only [analyzeVotesCounted, List.length_map]
  rw [if_neg (by simpa using hne)]

theorem analyzeVotesCounted_mode (votes : List (String × Nat))
    (hne : votes ≠ []) :
    (analyzeVotesCounted votes).mode = (modeMax votes).1 := by
  rw [analyzeVotesCounted_fields votes hne]

theorem analyzeVotesCounted_recPoint (votes : List (String × Nat))
    (hne : votes ≠ []) :
    (analyzeVotesCounted votes).recommendedPoint =
      (if (distinctValsAsc votes).length == 1 then (modeMax votes).1.getD 0
       else if (modeMax votes).1.isSome ∧
           ((votes.length : ℚ) / 2 < ((modeMax votes).2 : ℚ)) then
         (modeMax votes).1.getD 0
       else
         roundToNearestPoint
           (medianFormula ((votes.map (·.2)).insertionSort (· ≤ ·)))) := by
  rw [analyzeVotesCounted_fields votes hne]

/-- When a value accounts for a strict majority (`n < 2 * count m`), the
recommended point is that value. -/
theorem recommendedPoint_of_majority (votes : List (String × Nat))
    (hne : votes ≠ []) (m : Nat)
    (hmaj : votes.length < 2 * (votes.map (·.2)).count m) :
    (analyzeVotesCounted votes).recommendedPoint = m := by
  have hlen : (votes.map (·.2)).length = votes.length := List.length_map _ _
  have hcntpos : 0 < (votes.map (·.2)).count m := by
    have := List.count_le_length m (votes.map (·.2))
    omega
  have hmem : m ∈ votes.map (·.2) := List.count_pos_iff.mp hcntpos
  obtain ⟨v, hmode, hmaxc, hvmem, hub, htie⟩ := modeMax_spec votes hne
  have hvm : v = m := by
    by_contra hne2
    have hdisj := count_add_count_le (votes.map (·.2)) v m hne2
    have hle := hub m hmem
    omega
  subst hvm
  rw [analyzeVotesCounted_recPoint votes hne]
  by_cases hcons : ((distinctValsAsc votes).length == 1) = true
  · rw [if_pos hcons, hmode]
    rfl
  · rw [if_neg hcons, if_pos ?_, hmode]
    · rfl
    · constructor
      · rw [hmode]
        rfl
      · rw [hmaxc]
        have h3 : votes.length < (votes.map (·.2)).count v * 2 := by omega
        rw [div_lt_iff₀ (by norm_num)]
        exact_mod_cast h3

/-- **C2**: for every non-empty set of counted votes, the analyzer's mode is a
counted value whose voter count is largest, and when several values tie for
the largest voter count the mode is the numerically smallest of them. -/
theorem claim_C2_mode (votes : List (String × Nat)) (hne : votes ≠ []) :
    ∃ m, (analyzeVotesCounted votes).mode = some m ∧
      m ∈ votes.map (·.2) ∧
      (∀ v ∈ votes.map (·.2),
        (votes.map (·.2)).count v ≤ (votes.map (·.2)).count m) ∧
      (∀ v ∈ votes.map (·.2),
        (votes.map (·.2)).count v = (votes.map (·.2)).count m → m ≤ v) := by
  obtain ⟨m, hmode, _, hmem, hub, htie⟩ := modeMax_spec votes hne
  refine ⟨m, ?_, hmem, hub, htie⟩
  rw [analyzeVotesCounted_mode votes hne, hmode]

/-- When no value has a strict majority, the recommended point is the nearest
scale value to the median (ties to the lower scale value). -/
theorem recommendedPoint_of_no_majority (votes : List (String × Nat))
    (hne : votes ≠ [])
    (hniv : ∀ m, 2 * (votes.map (·.2)).count m ≤ votes.length) :
    ∀ l, (votes.map (·.2)).Perm l → l.Sorted (· ≤ ·) →
      NearestScaleLowerTie (analyzeVotesCounted votes).recommendedPoint
        (medianFormula l) := by
  intro l hperm hsorted
  have hlen : (votes.map (·.2)).length = votes.length := List.length_map _ _
  have hvalsne : votes.map (·.2) ≠ [] := by
    intro h0
    exact hne (List.map_eq_nil_iff.mp h0)
  have hl : (votes.map (·.2)).insertionSort (· ≤ ·) = l :=
    List.eq_of_perm_of_sorted
      ((List.perm_insertionSort _ _).trans hperm)
      (List.sorted_insertionSort _ _) hsorted
  obtain ⟨v, hmode, hmaxc, hvmem, hub, htie⟩ := modeMax_spec votes hne
  rw [analyzeVotesCounted_recPoint votes hne]
  rw [if_neg ?_, if_neg ?_]
  · rw [hl]
    exact roundToNearestPoint_nearest (medianFormula l)
  · rintro ⟨-, hrat⟩
    rw [hmaxc] at hrat
    have h2 := hniv v
    rw [div_lt_iff₀ (by norm_num)] at hrat
    have hn : votes.length < (votes.map (·.2)).count v * 2 := by
      exact_mod_cast hrat
    omega
  · intro hcons
    obtain ⟨c, hc⟩ := List.length_eq_one.mp (by simpa using hcons)
    have hall : ∀ w ∈ votes.map (·.2), w = c := by
      intro w hw
      have : w ∈ distinctValsAsc votes := (mem_distinctValsAsc votes w).mpr hw
      rw [hc] at this
      simpa using this
    have hcnt : (votes.map (·.2)).count c = (votes.map (·.2)).length :=
      List.count_eq_length.mpr fun b hb => (hall b hb).symm
    have h2 := hniv c
    have hpos : 0 < (votes.map (·.2)).length :=
      List.length_pos.mpr hvalsne
    omega


/-- **C1**: for every non-empty set of counted votes, the recommended point is
(a) the single agreed value under consensus, (b) otherwise the strict-majority
value (the mode) when one value's voter count strictly exceeds half the number
of votes, and (c) otherwise the scale value from {1,2,3,5,8,13} nearest to the
median of the ascending-sorted values (middle element for odd count, mean of
the two middle elements for even count), distance ties resolved to the lower
scale value. -/
theorem claim_C1_recommendedPoint (votes : List (String × Nat))
    (hne : votes ≠ []) :
    (∀ c, (∀ v ∈ votes.map (·.2), v = c) →
        (analyzeVotesCounted votes).recommendedPoint = c) ∧
    (∀ m, votes.length < 2 * (votes.map (·.2)).count m →
        (analyzeVotesCounted votes).recommendedPoint = m) ∧
    ((∀ m, 2 * (votes.map (·.2)).count m ≤ votes.length) →
      ∀ l, (votes.map (·.2)).Perm l → l.Sorted (· ≤ ·) →
        NearestScaleLowerTie (analyzeVotesCounted votes).recommendedPoint
          (medianFormula l)) := by
  refine ⟨?_, fun m h => recommendedPoint_of_majority votes hne m h,
    recommendedPoint_of_no_majority votes hne⟩
  intro c hc
  apply recommendedPoint_of_majority votes hne c
  have hcnt : (votes.map (·.2)).count c = (votes.map (·.2)).length :=
    List.count_eq_length.mpr fun b hb => (hc b hb).symm
  have hlen : (votes.map (·.2)).length = votes.length := List.length_map _ _
  have hpos : 0 < votes.length := List.length_pos.mpr hne
  omega

theorem claim_C1_recommendedPoint_witness :
    NearestScaleLowerTie
      (analyzeVotesCounted
        [("a", 1), ("b", 2), ("c", 2), ("d", 3)]).recommendedPoint
      (medianFormula [1, 2, 2, 3]) ∧
    (analyzeVotesCounted
      [("a", 1), ("b", 1), ("c", 1), ("d", 8)]).recommendedPoint = 1 := by
  constructor
  · refine (claim_C1_recommendedPoint [("a", 1), ("b", 2), ("c", 2), ("d", 3)]
      (by decide)).2.2 ?_ [1, 2, 2, 3] (by decide) (by decide)
    intro m
    show 2 * (([1, 2, 2, 3] : List Nat).count m) ≤ 4
    by_cases h1 : m = 1
    · subst h1
      decide
    by_cases h2 : m = 2
    · subst h2
      decide
    by_cases h3 : m = 3
    · subst h3
      decide
    rw [List.count_eq_zero.mpr (by simp [h1, h2, h3])]
    decide
  · exact (claim_C1_recommendedPoint [("a", 1), ("b", 1), ("c", 1), ("d", 8)]
      (by decide)).2.1 1 (by decide)

theorem claim_C2_mode_witness :
    (analyzeVotesCounted
      [("a", 2), ("b", 1), ("c", 2), ("d", 1), ("e", 3)]).mode = some 1 := by
  obtain ⟨m, hmode, hmem, hub, htie⟩ :=
    claim_C2_mode [("a", 2), ("b", 1), ("c", 2), ("d", 1), ("e", 3)]
      (by decide)
  simp only [List.map_cons, List.map_nil, List.mem_cons,
    List.not_mem_nil, or_false] at hmem
  rcases hmem with rfl | rfl | rfl | rfl | rfl
  · exact absurd (htie 1 (by decide) (by decide)) (by decide)
  · exact hmode
  · exact absurd (htie 1 (by decide) (by decide)) (by decide)
  · exact hmode
  · exact absurd (hub 1 (by decide)) (by decide)

/-! ## The session well-formedness invariant (claims C3 and C4) -/

/-- `votingRevealed` mirrors the `revealed` flag of the selected ticket (the
first ticket with the selected id, which is what every handler consults), and
is `false` when no ticket is selected.  This also forces the selected id to
reference a ticket. -/
def SessionWF (s : TeamSession) : Prop :=
  (s.selectedTicketId = none → s.votingRevealed = false) ∧
  (∀ tid, s.selectedTicketId = some tid →
    ∃ t, s.tickets.find? (fun t => t.id == tid) = some t ∧
      s.votingRevealed = t.revealed)

/-- Every stored session is well-formed. -/
def SessionsWF (f : String → Option TeamSession) : Prop :=
  ∀ code s, f code = some s → SessionWF s

theorem sessionsWF_set (f : String → Option TeamSession) (hf : SessionsWF f)
    (code : String) (v : Option TeamSession)
    (hv : ∀ s, v = some s → SessionWF s) :
    SessionsWF (setSession f code v) := by
  intro c s h
  unfold setSession at h
  by_cases hc : c = code
  · rw [if_pos hc] at h
    exact hv s h
  · rw [if_neg hc] at h
    exact hf c s h

/-- Changing only the users of a session preserves well-formedness. -/
theorem sessionWF_users (s : TeamSession) (u : List User) (hw : SessionWF s) :
    SessionWF { s with users := u } := by
  cases s
  exact hw

theorem sessionWF_empty (code : String) : SessionWF (emptySession code) := by
  refine ⟨fun _ => rfl, fun tid h => ?_⟩
  simp [emptySession] at h

theorem find?_append_some {α : Type} (l l' : List α) (p : α → Bool) (x : α)
    (h : l.find? p = some x) : (l ++ l').find? p = some x := by
  induction l with
  | nil => simp at h
  | cons a t ih =>
    rw [List.cons_append]
    rcases hp : p a with _ | _
    · rw [List.find?_cons_of_neg _ (by simp [hp])] at h ⊢
      exact ih h
    · rw [List.find?_cons_of_pos _ hp] at h ⊢
      exact h

theorem find?_updateFirstTicket (tickets : List Ticket) (tid : String)
    (f : Ticket → Ticket) (t : Ticket) (hid : ∀ t, (f t).id = t.id)
    (h : tickets.find? (fun t => t.id == tid) = some t) :
    (updateFirstTicket tickets tid f).find? (fun t => t.id == tid) =
      some (f t) := by
  induction tickets with
  | nil => simp at h
  | cons a rest ih =>
    by_cases ha : a.id = tid
    · rw [List.find?_cons_of_pos _ (by simp [ha])] at h
      injection h with h
      subst h
      rw [updateFirstTicket, if_pos ha,
        List.find?_cons_of_pos _ (by simp [hid, ha])]
    · rw [List.find?_cons_of_neg _ (by simp [ha])] at h
      rw [updateFirstTicket, if_neg ha,
        List.find?_cons_of_neg _ (by simp [ha])]
      exact ih h

/-- Appending tickets preserves well-formedness. -/
theorem sessionWF_append_ticket (s : TeamSession) (t : Ticket)
    (hw : SessionWF s) : SessionWF { s with tickets := s.tickets ++ [t] } := by
  obtain ⟨h1, h2⟩ := hw
  refine ⟨h1, fun tid hsel => ?_⟩
  obtain ⟨t0, hf, hv⟩ := h2 tid hsel
  exact ⟨t0, find?_append_some _ _ _ _ hf, hv⟩

/-- A session whose selected ticket is found with a matching reveal flag is
well-formed. -/
theorem sessionWF_of_selected (s : TeamSession) (tid : String) (t : Ticket)
    (hsel : s.selectedTicketId = some tid)
    (hfind : s.tickets.find? (fun t => t.id == tid) = some t)
    (hvr : s.votingRevealed = t.revealed) : SessionWF s := by
  constructor
  · intro h0
    rw [hsel] at h0
    cases h0
  · intro tid2 hsel2
    rw [hsel] at hsel2
    injection hsel2 with hsel2
    subst hsel2
    exact ⟨t, hfind, hvr⟩


/-- The join handler always stores (at the joined code) the looked-up or
freshly created session with only its user list modified. -/
theorem joinHandler_sessions_shape (st : ServerState) (ws : Nat)
    (fresh tc n : String) (r : Role) (uid : Option String) :
    ∃ users1, (joinHandler st ws fresh tc n r uid).1.sessions =
      setSession st.sessions tc
        (some { (st.sessions tc).getD (emptySession tc) with
                users := users1 }) := by
  unfold joinHandler
  dsimp only
  repeat' split
  all_goals dsimp only
  repeat' split
  all_goals exact ⟨_, rfl⟩

theorem joinHandler_wf (st : ServerState) (ws : Nat) (fresh tc n : String)
    (r : Role) (uid : Option String) (hw : SessionsWF st.sessions) :
    SessionsWF (joinHandler st ws fresh tc n r uid).1.sessions := by
  have hs0 : SessionWF ((st.sessions tc).getD (emptySession tc)) := by
    cases hst : st.sessions tc with
    | some s => exact hw tc s hst
    | none => exact sessionWF_empty tc
  obtain ⟨users1, hshape⟩ := joinHandler_sessions_shape st ws fresh tc n r uid
  rw [hshape]
  refine sessionsWF_set _ hw _ _ (fun s hs => ?_)
  injection hs with hs
  subst hs
  exact sessionWF_users _ _ hs0

theorem addTicketHandler_wf (st : ServerState) (ws : Nat)
    (fresh title descr : String) (outs : List Output)
    (hw : SessionsWF st.sessions) :
    SessionsWF (((addTicketHandler st ws fresh title descr).getD
      (st, outs)).1.sessions) := by
  unfold addTicketHandler
  split
  · exact hw
  · split
    · exact hw
    · split
      · split
        · rename_i a1 ci hci a2 session hsess a3 u hfindu hrole
          exact sessionsWF_set _ hw _ _ (fun s hs => by
            injection hs with hs
            subst hs
            exact sessionWF_append_ticket _ _ (hw _ session hsess))
        · exact hw
      · exact hw

theorem selectTicketHandler_wf (st : ServerState) (ws : Nat) (tid : String)
    (outs : List Output) (hw : SessionsWF st.sessions) :
    SessionsWF (((selectTicketHandler st ws tid).getD (st, outs)).1.sessions) := by
  unfold selectTicketHandler
  split
  · exact hw
  · split
    · exact hw
    · split
      · split
        · split
          · exact hw
          · rename_i a1 ci hci a2 session hsess a3 u hfindu hrole a4 ticket hfindt
            exact sessionsWF_set _ hw _ _ (fun s hs => by
              injection hs with hs
              subst hs
              exact sessionWF_of_selected _ tid _ rfl hfindt rfl)
        · exact hw
      · exact hw

theorem voteHandler_wf (st : ServerState) (ws : Nat) (p : Nat)
    (outs : List Output) (hw : SessionsWF st.sessions) :
    SessionsWF (((voteHandler st ws p).getD (st, outs)).1.sessions) := by
  unfold voteHandler
  split
  · exact hw
  · split
    · exact hw
    · split
      · exact hw
      · split
        · split
          · exact hw
          · split
            · split
              · exact hw
              · dsimp only
                split
                · rename_i a1 ci hci a2 session hsess a3 u hfindu hrole a4 sid
                    hsel hpv a5 ticket hfindt hcond
                  exact sessionsWF_set _ hw _ _ (fun s hs => by
                    injection hs with hs
                    subst hs
                    exact sessionWF_of_selected _ sid _ hsel
                      (find?_updateFirstTicket _ _ _ _ (fun t => rfl)
                        (find?_updateFirstTicket _ _ _ _ (fun t => rfl)
                          hfindt))
                      rfl)
                · rename_i a1 ci hci a2 session hsess a3 u hfindu hrole a4 sid
                    hsel hpv a5 ticket hfindt hcond
                  refine sessionsWF_set _ hw _ _ (fun s hs => ?_)
                  injection hs with hs
                  subst hs
                  obtain ⟨-, h2⟩ := hw _ session hsess
                  obtain ⟨t0, hf0, hv0⟩ := h2 sid hsel
                  rw [hfindt] at hf0
                  injection hf0 with hf0
                  subst hf0
                  exact sessionWF_of_selected _ sid _ hsel
                    (find?_updateFirstTicket _ _ _ _ (fun t => rfl) hfindt)
                    hv0
            · exact hw
        · exact hw

theorem revealVotesHandler_wf (st : ServerState) (ws : Nat)
    (outs : List Output) (hw : SessionsWF st.sessions) :
    SessionsWF (((revealVotesHandler st ws).getD (st, outs)).1.sessions) := by
  unfold revealVotesHandler
  split
  · exact hw
  · split
    · exact hw
    · split
      · exact hw
      · split
        · split
          · exact hw
          · split
            · exact hw
            · rename_i a1 ci hci a2 session hsess a3 u hfindu hrole a4 sid
                hsel a5 ticket hfindt
              exact sessionsWF_set _ hw _ _ (fun s hs => by
                injection hs with hs
                subst hs
                exact sessionWF_of_selected _ sid _ hsel
                  (find?_updateFirstTicket _ _ _ _ (fun t => rfl) hfindt)
                  rfl)
        · exact hw

theorem resetVotesHandler_wf (st : ServerState) (ws : Nat)
    (outs : List Output) (hw : SessionsWF st.sessions) :
    SessionsWF (((resetVotesHandler st ws).getD (st, outs)).1.sessions) := by
  unfold resetVotesHandler
  split
  · exact hw
  · split
    · exact hw
    · split
      · exact hw
      · split
        · split
          · exact hw
          · split
            · exact hw
            · rename_i a1 ci hci a2 session hsess a3 u hfindu hrole a4 sid
                hsel a5 ticket hfindt
              exact sessionsWF_set _ hw _ _ (fun s hs => by
                injection hs with hs
                subst hs
                exact sessionWF_of_selected _ sid _ hsel
                  (find?_updateFirstTicket _ _ _ _ (fun t => rfl) hfindt)
                  rfl)
        · exact hw

theorem handleDisconnect_wf (st : ServerState) (ws : Nat)
    (hw : SessionsWF st.sessions) :
    SessionsWF (handleDisconnect st ws).1.sessions := by
  unfold handleDisconnect
  split
  · exact hw
  · dsimp only
    split
    · exact hw
    · split
      · exact sessionsWF_set _ hw _ _ (fun s hs => by cases hs)
      · rename_i a1 ci hci a2 session hsess hne
        exact sessionsWF_set _ hw _ _ (fun s hs => by
          injection hs with hs
          subst hs
          exact sessionWF_users _ _ (hw _ session hsess))

theorem handle_wf (st : ServerState) (ws : Nat) (fresh : String)
    (m : ClientMessage) (hw : SessionsWF st.sessions) :
    SessionsWF (handle st ws fresh m).1.sessions := by
  cases m with
  | join tc n r uid => exact joinHandler_wf st ws fresh tc n r uid hw
  | leave => exact handleDisconnect_wf st ws hw
  | addTicket title descr =>
    exact addTicketHandler_wf st ws fresh title descr _ hw
  | selectTicket tid => exact selectTicketHandler_wf st ws tid _ hw
  | vote p => exact voteHandler_wf st ws p _ hw
  | revealVotes => exact revealVotesHandler_wf st ws _ hw
  | resetVotes => exact resetVotesHandler_wf st ws _ hw

/-- Every reachable state stores only well-formed sessions. -/
theorem reachable_wf {st : ServerState} (h : Reachable st) :
    SessionsWF st.sessions := by
  induction h with
  | init =>
    intro c s hs
    cases hs
  | msg hr ws fresh m ih => exact handle_wf _ ws fresh m ih
  | disc hr ws ih => exact handleDisconnect_wf _ ws ih


/-- **C3**: in every session state reachable by any sequence of commands from
a fresh server, `selectedTicketId` is either null or the id of some ticket in
the session's ticket sequence. -/
theorem claim_C3_selected_ticket_exists {st : ServerState}
    (h : Reachable st) :
    ∀ code s, st.sessions code = some s →
      s.selectedTicketId = none ∨
        ∃ tid, s.selectedTicketId = some tid ∧
          ∃ t ∈ s.tickets, t.id = tid := by
  intro code s hs
  cases hsel : s.selectedTicketId with
  | none => exact Or.inl rfl
  | some tid =>
    right
    obtain ⟨-, h2⟩ := reachable_wf h code s hs
    obtain ⟨t, hf, -⟩ := h2 tid hsel
    refine ⟨tid, rfl, t, List.mem_of_find?_eq_some hf, ?_⟩
    have hp := List.find?_some hf
    simpa using hp

theorem claim_C3_selected_ticket_exists_witness :
    ((handle initialState 0 "u1"
        (ClientMessage.join "T" "alice" Role.observer none)).1.sessions
        "T").map TeamSession.selectedTicketId = some none := by
  have hs : (handle initialState 0 "u1"
      (ClientMessage.join "T" "alice" Role.observer none)).1.sessions "T" =
      some { code := "T",
             users := [{ id := "u1", name := "alice", role := Role.observer }],
             tickets := [], selectedTicketId := none,
             votingRevealed := false } := by decide
  rcases claim_C3_selected_ticket_exists
      (Reachable.msg Reachable.init 0 "u1"
        (ClientMessage.join "T" "alice" Role.observer none)) "T" _ hs with
    h0 | ⟨tid, htid, t, ht, -⟩
  · rw [hs, Option.map_some', h0]
  · exact absurd ht (List.not_mem_nil t)

/-- **C4**: in every reachable state, `votingRevealed` equals the `revealed`
flag of the selected ticket and is false when none is selected; moreover
re-selecting an already-revealed ticket sets `votingRevealed` to true rather
than resetting it. -/
theorem claim_C4_votingRevealed_mirror :
    (∀ st : ServerState, Reachable st →
      ∀ code s, st.sessions code = some s →
        (s.selectedTicketId = none → s.votingRevealed = false) ∧
        (∀ tid, s.selectedTicketId = some tid →
          ∃ t, s.tickets.find? (fun t => t.id == tid) = some t ∧
            s.votingRevealed = t.revealed)) ∧
    (∀ (st : ServerState) (ws : Nat) (tid : String) ci session u ticket st2
        outs,
      st.conns ws = some ci →
      st.sessions ci.sessionCode = some session →
      session.users.find? (fun u => u.id == ci.userId) = some u →
      u.role = Role.observer →
      session.tickets.find? (fun t => t.id == tid) = some ticket →
      ticket.revealed = true →
      selectTicketHandler st ws tid = some (st2, outs) →
      ∃ s2, st2.sessions ci.sessionCode = some s2 ∧
        s2.selectedTicketId = some tid ∧ s2.votingRevealed = true) := by
  constructor
  · intro st h code s hs
    exact reachable_wf h code s hs
  · intro st ws tid ci session u ticket st2 outs hconn hsess hfindu hrole
      hfindt hrev hrun
    simp only [selectTicketHandler, hconn, hsess, hfindu, hrole, hfindt,
      reduceCtorEq, ite_true, if_true, Option.some.injEq] at hrun
    obtain ⟨hst2, -⟩ := Prod.mk.injEq .. |>.mp hrun
    subst hst2
    apply Exists.intro { session with selectedTicketId := some tid, votingRevealed := ticket.revealed }
    refine ⟨?_, rfl, hrev⟩
    show setSession st.sessions ci.sessionCode _ ci.sessionCode = _
    rw [setSession, if_pos rfl]

/-- Demo state for the C4 witness: one observer in session `"T"` with a
single already-revealed ticket `"t1"`, nothing selected. -/
def reselectDemoSession : TeamSession :=
  { code := "T", users := [{ id := "o1", name := "bob", role := Role.observer }],
    tickets := [{ id := "t1", title := "x", description := "d", votes := [],
                  revealed := true }],
    selectedTicketId := none, votingRevealed := false }

def reselectDemoState : ServerState :=
  { sessions := setSession (fun _ => none) "T" (some reselectDemoSession),
    conns := setConn (fun _ => none) 0
      (some { sessionCode := "T", userId := "o1" }) }

theorem claim_C4_votingRevealed_mirror_witness :
    ((selectTicketHandler reselectDemoState 0 "t1").map
      (fun r => (r.1.sessions "T").map TeamSession.votingRevealed)) =
        some (some true) ∧
    ((handle initialState 1 "u2"
        (ClientMessage.join "W" "carol" Role.player none)).1.sessions
        "W").map TeamSession.votingRevealed = some false := by
  constructor
  · rcases hrun : selectTicketHandler reselectDemoState 0 "t1" with _ | ⟨st2, outs⟩
    · have hsome : (selectTicketHandler reselectDemoState 0 "t1").isSome =
          true := by decide
      rw [hrun] at hsome
      cases hsome
    · obtain ⟨s2, hs2, hsel2, hvr2⟩ :=
        claim_C4_votingRevealed_mirror.2 reselectDemoState 0 "t1"
          { sessionCode := "T", userId := "o1" } reselectDemoSession
          { id := "o1", name := "bob", role := Role.observer }
          { id := "t1", title := "x", description := "d", votes := [],
            revealed := true }
          st2 outs (by decide) (by decide) (by decide) (by decide) (by decide)
          (by decide) hrun
      rw [Option.map_some']
      dsimp only at hs2 ⊢
      rw [hs2, Option.map_some', hvr2]
  · have hs : (handle initialState 1 "u2"
        (ClientMessage.join "W" "carol" Role.player none)).1.sessions "W" =
        some { code := "W",
               users := [{ id := "u2", name := "carol", role := Role.player }],
               tickets := [], selectedTicketId := none,
               votingRevealed := false } := by decide
    have hmir := (claim_C4_votingRevealed_mirror.1 _
      (Reachable.msg Reachable.init 1 "u2"
        (ClientMessage.join "W" "carol" Role.player none)) "W" _ hs).1 rfl
    rw [hs, Option.map_some', hmir]

/-- **C9**: removing the last user deletes the session; a join to an unknown
code creates a brand-new session containing only the joiner, with no tickets,
no selection and `votingRevealed = false`; and running the disconnect handler
twice on the same connection is a no-op the second time. -/
theorem claim_C9_last_leave_deletes_session :
    (∀ (st : ServerState) (ws : Nat) ci s u, st.conns ws = some ci →
      st.sessions ci.sessionCode = some s → s.users = [u] →
      u.id = ci.userId →
      (handleDisconnect st ws).1.sessions ci.sessionCode = none ∧
      (handleDisconnect st ws).1.conns ws = none) ∧
    (∀ (st : ServerState) (ws : Nat) (fresh tc n : String) (r : Role),
      st.sessions tc = none →
      (handle st ws fresh (ClientMessage.join tc n r none)).1.sessions tc =
        some { code := tc, users := [{ id := fresh, name := n, role := r }],
               tickets := [], selectedTicketId := none,
               votingRevealed := false }) ∧
    (∀ (st : ServerState) (ws : Nat),
      handleDisconnect (handleDisconnect st ws).1 ws =
        ((handleDisconnect st ws).1, [])) := by
  refine ⟨?_, ?_, ?_⟩
  · intro st ws ci s u hconn hsess husers hid
    constructor
    · simp [handleDisconnect, hconn, hsess, husers, hid, setSession]
    · simp [handleDisconnect, hconn, setConn]
  · intro st ws fresh tc n r hsess
    simp [handle, handleMessage, joinHandler, hsess, emptySession, setSession]
  · intro st ws
    have hc : (handleDisconnect st ws).1.conns ws = none := by
      unfold handleDisconnect
      cases hcs : st.conns ws with
      | none => exact hcs
      | some ci => simp [setConn]
    generalize (handleDisconnect st ws).1 = st1 at hc ⊢
    unfold handleDisconnect
    rw [hc]

/-- Demo state for the C9 witness: a single player in session `"T"`. -/
def lastUserDemoState : ServerState :=
  { sessions := setSession (fun _ => none) "T"
      (some { code := "T",
              users := [{ id := "p1", name := "al", role := Role.player }],
              tickets := [], selectedTicketId := none,
              votingRevealed := false }),
    conns := setConn (fun _ => none) 0
      (some { sessionCode := "T", userId := "p1" }) }

theorem claim_C9_last_leave_deletes_session_witness :
    (handleDisconnect lastUserDemoState 0).1.sessions "T" = none ∧
    (handle initialState 0 "u9"
      (ClientMessage.join "X" "al" Role.player none)).1.sessions "X" =
      some { code := "X",
             users := [{ id := "u9", name := "al", role := Role.player }],
             tickets := [], selectedTicketId := none,
             votingRevealed := false } ∧
    handleDisconnect (handleDisconnect lastUserDemoState 0).1 0 =
      ((handleDisconnect lastUserDemoState 0).1, []) :=
  ⟨(claim_C9_last_leave_deletes_session.1 lastUserDemoState 0
      { sessionCode := "T", userId := "p1" }
      { code := "T",
        users := [{ id := "p1", name := "al", role := Role.player }],
        tickets := [], selectedTicketId := none, votingRevealed := false }
      { id := "p1", name := "al", role := Role.player }
      (by decide) (by decide) (by decide) (by decide)).1,
   claim_C9_last_leave_deletes_session.2.1 initialState 0 "u9" "X" "al"
     Role.player rfl,
   claim_C9_last_leave_deletes_session.2.2 lastUserDemoState 0⟩

theorem addTicketHandler_err (st : ServerState) (ws : Nat) (fresh title descr : String)
    (d : ServerState × List Output) (hd1 : d.1 = st)
    (hd2 : ∃ e, d.2 = [Output.send ws (ServerMessage.error e)])
    (herr : ∃ c e, Output.send c (ServerMessage.error e) ∈
      ((addTicketHandler st ws fresh title descr).getD d).2) :
    ((addTicketHandler st ws fresh title descr).getD d).1 = st ∧
    ∃ e, ((addTicketHandler st ws fresh title descr).getD d).2 =
      [Output.send ws (ServerMessage.error e)] := by
  revert herr
  unfold addTicketHandler
  split
  · exact fun _ => ⟨rfl, _, rfl⟩
  · split
    · exact fun _ => ⟨hd1, hd2⟩
    · split
      · split
        · rintro ⟨c, e, hmem⟩
          simp at hmem
        · exact fun _ => ⟨rfl, _, rfl⟩
      · exact fun _ => ⟨rfl, _, rfl⟩

theorem selectTicketHandler_err (st : ServerState) (ws : Nat) (tid : String)
    (d : ServerState × List Output) (hd1 : d.1 = st)
    (hd2 : ∃ e, d.2 = [Output.send ws (ServerMessage.error e)])
    (herr : ∃ c e, Output.send c (ServerMessage.error e) ∈
      ((selectTicketHandler st ws tid).getD d).2) :
    ((selectTicketHandler st ws tid).getD d).1 = st ∧
    ∃ e, ((selectTicketHandler st ws tid).getD d).2 =
      [Output.send ws (ServerMessage.error e)] := by
  revert herr
  unfold selectTicketHandler
  split
  · exact fun _ => ⟨rfl, _, rfl⟩
  · split
    · exact fun _ => ⟨hd1, hd2⟩
    · split
      · split
        · split
          · exact fun _ => ⟨rfl, _, rfl⟩
          · rintro ⟨c, e, hmem⟩
            simp at hmem
        · exact fun _ => ⟨rfl, _, rfl⟩
      · exact fun _ => ⟨rfl, _, rfl⟩

theorem voteHandler_err (st : ServerState) (ws : Nat) (p : Nat)
    (d : ServerState × List Output) (hd1 : d.1 = st)
    (hd2 : ∃ e, d.2 = [Output.send ws (ServerMessage.error e)])
    (herr : ∃ c e, Output.send c (ServerMessage.error e) ∈
      ((voteHandler st ws p).getD d).2) :
    ((voteHandler st ws p).getD d).1 = st ∧
    ∃ e, ((voteHandler st ws p).getD d).2 =
      [Output.send ws (ServerMessage.error e)] := by
  revert herr
  unfold voteHandler
  split
  · exact fun _ => ⟨rfl, _, rfl⟩
  · split
    · exact fun _ => ⟨hd1, hd2⟩
    · split
      · exact fun _ => ⟨rfl, _, rfl⟩
      · split
        · split
          · exact fun _ => ⟨rfl, _, rfl⟩
          · split
            · split
              · exact fun _ => ⟨rfl, _, rfl⟩
              · dsimp only
                split
                · rintro ⟨c, e, hmem⟩
                  simp at hmem
                · rintro ⟨c, e, hmem⟩
                  simp at hmem
            · exact fun _ => ⟨rfl, _, rfl⟩
        · exact fun _ => ⟨rfl, _, rfl⟩

theorem revealVotesHandler_err (st : ServerState) (ws : Nat)
    (d : ServerState × List Output) (hd1 : d.1 = st)
    (hd2 : ∃ e, d.2 = [Output.send ws (ServerMessage.error e)])
    (herr : ∃ c e, Output.send c (ServerMessage.error e) ∈
      ((revealVotesHandler st ws).getD d).2) :
    ((revealVotesHandler st ws).getD d).1 = st ∧
    ∃ e, ((revealVotesHandler st ws).getD d).2 =
      [Output.send ws (ServerMessage.error e)] := by
  revert herr
  unfold revealVotesHandler
  split
  · exact fun _ => ⟨rfl, _, rfl⟩
  · split
    · exact fun _ => ⟨hd1, hd2⟩
    · split
      · exact fun _ => ⟨rfl, _, rfl⟩
      · split
        · split
          · exact fun _ => ⟨rfl, _, rfl⟩
          · split
            · exact fun _ => ⟨rfl, _, rfl⟩
            · rintro ⟨c, e, hmem⟩
              simp at hmem
        · exact fun _ => ⟨rfl, _, rfl⟩

theorem resetVotesHandler_err (st : ServerState) (ws : Nat)
    (d : ServerState × List Output) (hd1 : d.1 = st)
    (hd2 : ∃ e, d.2 = [Output.send ws (ServerMessage.error e)])
    (herr : ∃ c e, Output.send c (ServerMessage.error e) ∈
      ((resetVotesHandler st ws).getD d).2) :
    ((resetVotesHandler st ws).getD d).1 = st ∧
    ∃ e, ((resetVotesHandler st ws).getD d).2 =
      [Output.send ws (ServerMessage.error e)] := by
  revert herr
  unfold resetVotesHandler
  split
  · exact fun _ => ⟨rfl, _, rfl⟩
  · split
    · exact fun _ => ⟨hd1, hd2⟩
    · split
      · exact fun _ => ⟨rfl, _, rfl⟩
      · split
        · split
          · exact fun _ => ⟨rfl, _, rfl⟩
          · split
            · exact fun _ => ⟨rfl, _, rfl⟩
            · rintro ⟨c, e, hmem⟩
              simp at hmem
        · exact fun _ => ⟨rfl, _, rfl⟩

theorem joinHandler_no_error (st : ServerState) (ws : Nat)
    (fresh tc n : String) (r : Role) (uid : Option String) (c : Nat)
    (e : String) :
    Output.send c (ServerMessage.error e) ∉
      (joinHandler st ws fresh tc n r uid).2 := by
  unfold joinHandler
  dsimp only
  repeat' split
  all_goals dsimp only
  repeat' split
  all_goals simp

theorem handleDisconnect_no_error (st : ServerState) (ws : Nat) (c : Nat)
    (e : String) :
    Output.send c (ServerMessage.error e) ∉ (handleDisconnect st ws).2 := by
  unfold handleDisconnect
  dsimp only
  repeat' split
  all_goals dsimp only
  repeat' split
  all_goals simp

/-- **C8**: every command that produces an error reply sends that single error
message to the originating connection only, with no broadcast and no change to
the sessions store or the connection registry. -/
theorem claim_C8_error_local_no_mutation (st : ServerState) (ws : Nat)
    (fresh : String) (m : ClientMessage)
    (herr : ∃ c e, Output.send c (ServerMessage.error e) ∈
      (handle st ws fresh m).2) :
    (handle st ws fresh m).1 = st ∧
    ∃ e, (handle st ws fresh m).2 = [Output.send ws (ServerMessage.error e)] := by
  cases m with
  | join tc n r uid =>
    obtain ⟨c, e, hmem⟩ := herr
    exact absurd hmem (joinHandler_no_error st ws fresh tc n r uid c e)
  | leave =>
    obtain ⟨c, e, hmem⟩ := herr
    exact absurd hmem (handleDisconnect_no_error st ws c e)
  | addTicket title descr =>
    exact addTicketHandler_err st ws fresh title descr _ rfl ⟨_, rfl⟩ herr
  | selectTicket tid =>
    exact selectTicketHandler_err st ws tid _ rfl ⟨_, rfl⟩ herr
  | vote p => exact voteHandler_err st ws p _ rfl ⟨_, rfl⟩ herr
  | revealVotes => exact revealVotesHandler_err st ws _ rfl ⟨_, rfl⟩ herr
  | resetVotes => exact resetVotesHandler_err st ws _ rfl ⟨_, rfl⟩ herr

theorem claim_C8_error_local_no_mutation_witness :
    (handle initialState 0 "f" (ClientMessage.addTicket "x" "y")).1 =
      initialState ∧
    (handle initialState 0 "f" (ClientMessage.addTicket "x" "y")).2 =
      [Output.send 0 (ServerMessage.error "Not in a session")] :=
  ⟨(claim_C8_error_local_no_mutation initialState 0 "f"
      (ClientMessage.addTicket "x" "y")
      ⟨0, "Not in a session", by decide⟩).1, by decide⟩


/-! ## Join reconciliation lemmas (claims C6 and C7) -/

theorem updateFirstUser_map_id (l : List User) (uid n : String) (r : Role) :
    (updateFirstUser l uid n r).map User.id = l.map User.id := by
  induction l with
  | nil => rfl
  | cons a t ih =>
    rw [updateFirstUser]
    by_cases ha : a.id = uid
    · rw [if_pos ha]
      simp
    · rw [if_neg ha]
      simp [ih]

theorem updateFirstUser_length (l : List User) (uid n : String) (r : Role) :
    (updateFirstUser l uid n r).length = l.length := by
  induction l with
  | nil => rfl
  | cons a t ih =>
    rw [updateFirstUser]
    by_cases ha : a.id = uid
    · rw [if_pos ha]
      simp
    · rw [if_neg ha]
      simp [ih]

theorem updateFirstUser_mem (l : List User) (uid n : String) (r : Role)
    (u0 : User) (h : l.find? (fun u => u.id == uid) = some u0) :
    ({ id := uid, name := n, role := r } : User) ∈ updateFirstUser l uid n r := by
  induction l with
  | nil => simp at h
  | cons a t ih =>
    by_cases ha : a.id = uid
    · rw [updateFirstUser, if_pos ha]
      exact List.mem_cons.mpr (Or.inl (by simp [User.mk.injEq, ha]))
    · rw [List.find?_cons_of_neg _ (by simp [ha])] at h
      rw [updateFirstUser, if_neg ha]
      exact List.mem_cons_of_mem _ (ih h)

theorem updateFirstUser_mem_other (l : List User) (uid n : String) (r : Role) :
    ∀ u ∈ updateFirstUser l uid n r, u.id ≠ uid → u ∈ l := by
  induction l with
  | nil => simp [updateFirstUser]
  | cons a t ih =>
    intro u hu hne2
    rw [updateFirstUser] at hu
    by_cases ha : a.id = uid
    · rw [if_pos ha] at hu
      rcases List.mem_cons.mp hu with rfl | hut
      · exact absurd ha hne2
      · exact List.mem_cons_of_mem _ hut
    · rw [if_neg ha] at hu
      rcases List.mem_cons.mp hu with rfl | hut
      · exact List.mem_cons_self _ _
      · exact List.mem_cons_of_mem _ (ih u hut hne2)

theorem find?_first {α : Type} (l1 : List α) (a : α) (l2 : List α)
    (p : α → Bool) (h1 : ∀ b ∈ l1, ¬p b) (ha : p a) :
    (l1 ++ a :: l2).find? p = some a := by
  induction l1 with
  | nil => simp [List.find?_cons_of_pos _ ha]
  | cons b t ih =>
    rw [List.cons_append,
      List.find?_cons_of_neg _ (by simpa using h1 b (by simp))]
    exact ih fun x hx => h1 x (by simp [hx])

/-- **C6**: a join whose supplied userId matches an existing user updates that
user's name and role in place: the stored user-id list (hence the id set and
the entry count) is unchanged, the matched entry now carries the new name and
role, and all other entries are untouched. -/
theorem claim_C6_reconnect_updates_in_place (st : ServerState) (ws : Nat)
    (fresh tc n : String) (r : Role) (uid : String) (session : TeamSession)
    (u0 : User) (hsess : st.sessions tc = some session) (hne : uid ≠ "")
    (hfind : session.users.find? (fun u => u.id == uid) = some u0) :
    ∃ session1,
      (handle st ws fresh (ClientMessage.join tc n r (some uid))).1.sessions
          tc = some session1 ∧
      session1.users.map User.id = session.users.map User.id ∧
      session1.users.length = session.users.length ∧
      ({ id := uid, name := n, role := r } : User) ∈ session1.users ∧
      (∀ u ∈ session1.users, u.id ≠ uid → u ∈ session.users) := by
  have huid : u0.id = uid := by simpa using List.find?_some hfind
  have hrun : (handle st ws fresh
      (ClientMessage.join tc n r (some uid))).1.sessions tc =
      some { session with
             users := updateFirstUser session.users u0.id n r } := by
    show (joinHandler st ws fresh tc n r (some uid)).1.sessions tc = _
    simp only [joinHandler, hsess, Option.getD_some, hne, ite_false, hfind,
      if_neg]
    rw [setSession, if_pos rfl]
  rw [huid] at hrun
  refine ⟨_, hrun, ?_, ?_, ?_, ?_⟩
  · exact updateFirstUser_map_id session.users uid n r
  · exact updateFirstUser_length session.users uid n r
  · exact updateFirstUser_mem session.users uid n r u0 hfind
  · exact updateFirstUser_mem_other session.users uid n r

def reconnectDemoState : ServerState :=
  { sessions := setSession (fun _ => none) "T"
      (some { code := "T",
              users := [{ id := "u1", name := "old", role := Role.player }],
              tickets := [], selectedTicketId := none,
              votingRevealed := false }),
    conns := fun _ => none }

theorem claim_C6_reconnect_updates_in_place_witness :
    ((handle reconnectDemoState 0 "zz"
        (ClientMessage.join "T" "new" Role.observer (some "u1"))).1.sessions
        "T").map (fun s => s.users.map User.id) = some ["u1"] := by
  obtain ⟨s1, hrun, hids, hlen, hmemb, hother⟩ :=
    claim_C6_reconnect_updates_in_place reconnectDemoState 0 "zz" "T" "new"
      Role.observer "u1"
      { code := "T",
        users := [{ id := "u1", name := "old", role := Role.player }],
        tickets := [], selectedTicketId := none, votingRevealed := false }
      { id := "u1", name := "old", role := Role.player }
      (by decide) (by decide) (by decide)
  rw [hrun, Option.map_some', hids]
  rfl

/-- **C7**: a join with no userId match but a (case-sensitive) name collision
removes exactly one prior entry (the first with that name), broadcasts exactly
one `userLeft` with the removed id to everyone but the joiner, and appends a
brand-new user carrying the freshly generated id. -/
theorem claim_C7_name_collision_replaces (st : ServerState) (ws : Nat)
    (fresh tc n : String) (r : Role) (uid : Option String)
    (session : TeamSession) (removed : User)
    (hsess : st.sessions tc = some session)
    (hnomatch : ∀ u : String, uid = some u →
      u = "" ∨ session.users.find? (fun x => x.id == u) = none)
    (hname : session.users.find? (fun u => u.name == n) = some removed) :
    ∃ l1 l2,
      session.users = l1 ++ removed :: l2 ∧
      (∀ u ∈ l1, u.name ≠ n) ∧
      (handle st ws fresh (ClientMessage.join tc n r uid)).1.sessions tc =
        some { session with
               users := (l1 ++ l2) ++
                 [{ id := fresh, name := n, role := r }] } ∧
      (handle st ws fresh (ClientMessage.join tc n r uid)).2 =
        [Output.broadcast tc (ServerMessage.userLeft removed.id) (some ws),
         Output.send ws (ServerMessage.sessionState
           { session with
             users := (l1 ++ l2) ++ [{ id := fresh, name := n, role := r }] }
           fresh),
         Output.broadcast tc
           (ServerMessage.userJoined { id := fresh, name := n, role := r })
           (some ws)] := by
  have hfound : (match uid with
      | some u => if u = "" then none
          else session.users.find? (fun x => x.id == u)
      | none => (none : Option User)) = none := by
    cases uid with
    | none => rfl
    | some u =>
      rcases hnomatch u rfl with h | h
      · simp [h]
      · simp [h]
  have hmem : removed ∈ session.users := List.mem_of_find?_eq_some hname
  have hpa0 : (removed.name == n) = true := by
    have h0 := List.find?_some hname
    exact h0
  obtain ⟨a2, l1, l2, hl1, hpa, hsplit, herase⟩ :=
    @List.exists_of_eraseP User (fun u => u.name == n) session.users removed
      hmem hpa0
  have ha2 : removed = a2 := by
    have hf2 : session.users.find? (fun u => u.name == n) = some a2 := by
      rw [hsplit]
      exact find?_first l1 a2 l2 _ (fun b hb => by simpa using hl1 b hb) hpa
    rw [hname] at hf2
    injection hf2
  subst ha2
  have hrun : joinHandler st ws fresh tc n r uid =
      ({ sessions := setSession st.sessions tc
           (some { session with
                   users := (l1 ++ l2) ++
                     [{ id := fresh, name := n, role := r }] }),
         conns := setConn st.conns ws
           (some { sessionCode := tc, userId := fresh }) },
       [Output.broadcast tc (ServerMessage.userLeft removed.id) (some ws),
        Output.send ws (ServerMessage.sessionState
          { session with
            users := (l1 ++ l2) ++ [{ id := fresh, name := n, role := r }] }
          fresh),
        Output.broadcast tc
          (ServerMessage.userJoined { id := fresh, name := n, role := r })
          (some ws)]) := by
    simp only [joinHandler, hsess, Option.getD_some, hfound, hname, herase]
  refine ⟨l1, l2, hsplit, fun u hu => by simpa using hl1 u hu, ?_, ?_⟩
  · show (joinHandler st ws fresh tc n r uid).1.sessions tc = _
    rw [hrun]
    show setSession st.sessions tc _ tc = _
    rw [setSession, if_pos rfl]
  · show (joinHandler st ws fresh tc n r uid).2 = _
    rw [hrun]

def collisionDemoState : ServerState :=
  { sessions := setSession (fun _ => none) "T"
      (some { code := "T",
              users := [{ id := "x1", name := "dup", role := Role.player }],
              tickets := [], selectedTicketId := none,
              votingRevealed := false }),
    conns := fun _ => none }

theorem claim_C7_name_collision_replaces_witness :
    ((handle collisionDemoState 1 "x2"
        (ClientMessage.join "T" "dup" Role.observer none)).2.filter
        (fun o => match o with
          | Output.broadcast _ (ServerMessage.userLeft _) _ => true
          | _ => false)).length = 1 := by
  obtain ⟨l1, l2, hsplit, hl1, hres, houts⟩ :=
    claim_C7_name_collision_replaces collisionDemoState 1 "x2" "T" "dup"
      Role.observer none
      { code := "T",
        users := [{ id := "x1", name := "dup", role := Role.player }],
        tickets := [], selectedTicketId := none, votingRevealed := false }
      { id := "x1", name := "dup", role := Role.player }
      (by decide) (fun u h => nomatch h) (by decide)
  rw [houts]
  rfl

/-! ## The auto-reveal rule (claim C5) -/

/-- The user with id `uid` has a non-absent vote recorded in `votes`. -/
def hasVoteIn (votes : List (String × Option Nat)) (uid : String) : Bool :=
  match votes.find? (fun e => e.1 == uid) with
  | some (_, some _) => true
  | _ => false

/-- The number of players in the session with a non-absent vote on the ticket
(the voted-count as the specification words it). -/
def playersVotedCount (s : TeamSession) (t : Ticket) : Nat :=
  (s.users.filter
    (fun u => u.role == Role.player && hasVoteIn t.votes u.id)).length

theorem find?_key_of_nodup (votes : List (String × Option Nat)) (a : String)
    (e : String × Option Nat) (hv : (votes.map (·.1)).Nodup) (he : e ∈ votes)
    (hk : e.1 = a) : votes.find? (fun x => x.1 == a) = some e := by
  induction votes with
  | nil => cases he
  | cons b t ih =>
    rw [List.map_cons, List.nodup_cons] at hv
    rcases List.mem_cons.mp he with rfl | het
    · exact List.find?_cons_of_pos _ (by simp [hk])
    · have hb : b.1 ≠ a := by
        intro hba
        have hmm : e.1 ∈ t.map (·.1) := List.mem_map_of_mem _ het
        rw [hk, ← hba] at hmm
        exact hv.1 hmm
      rw [List.find?_cons_of_neg _ (by simp [hb])]
      exact ih hv.2 het

theorem hasVoteIn_iff (votes : List (String × Option Nat)) (a : String)
    (hv : (votes.map (·.1)).Nodup) :
    hasVoteIn votes a = true ↔ ∃ e ∈ votes, e.1 = a ∧ e.2.isSome := by
  constructor
  · intro h
    unfold hasVoteIn at h
    rcases hfind : votes.find? (fun x => x.1 == a) with _ | ⟨k, v⟩
    · rw [hfind] at h
      cases h
    · have hk : k = a := by simpa using List.find?_some hfind
      have hmem := List.mem_of_find?_eq_some hfind
      rcases v with _ | n
      · rw [hfind] at h
        cases h
      · exact ⟨(k, some n), hmem, hk, rfl⟩
  · rintro ⟨e, he, hk, hsome⟩
    rw [hasVoteIn, find?_key_of_nodup votes a e hv he hk]
    rcases e with ⟨k, _ | n⟩
    · cases hsome
    · rfl

theorem length_eq_of_nodup_mem_iff {α : Type} (A B : List α) (hA : A.Nodup)
    (hB : B.Nodup) (h : ∀ a, a ∈ A ↔ a ∈ B) : A.length = B.length :=
  ((List.perm_ext_iff_of_nodup hA hB).mpr h).length_eq

/-- With unique user ids and unique vote keys, the implementation's
`getVoteCount` equals the specification's count of players holding a
non-absent vote. -/
theorem getVoteCount_eq_playersVotedCount (s : TeamSession) (t : Ticket)
    (hu : (s.users.map User.id).Nodup) (hv : (t.votes.map (·.1)).Nodup) :
    getVoteCount t s = playersVotedCount s t := by
  have hA : getVoteCount t s =
      ((t.votes.filter (fun e => (playerIds s).contains e.1 &&
        e.2.isSome)).map (·.1)).length := (List.length_map _ _).symm
  have hB : playersVotedCount s t =
      ((s.users.filter (fun u => u.role == Role.player &&
        hasVoteIn t.votes u.id)).map User.id).length :=
    (List.length_map _ _).symm
  rw [hA, hB]
  refine length_eq_of_nodup_mem_iff _ _ ?_ ?_ ?_
  · exact ((List.filter_sublist t.votes).map (·.1)).nodup hv
  · exact ((List.filter_sublist s.users).map User.id).nodup hu
  · intro a
    simp only [List.mem_map, List.mem_filter, Bool.and_eq_true]
    constructor
    · rintro ⟨e, ⟨hev, hcont, hsome⟩, rfl⟩
      have hmemp : e.1 ∈ playerIds s := by
        have := hcont
        rwa [List.contains, List.elem_iff] at this
      rw [playerIds, List.mem_map] at hmemp
      obtain ⟨u2, hu2, hid2⟩ := hmemp
      rw [List.mem_filter] at hu2
      refine ⟨u2, ⟨hu2.1, hu2.2, ?_⟩, hid2⟩
      rw [hid2]
      exact (hasVoteIn_iff t.votes e.1 hv).mpr ⟨e, hev, rfl, hsome⟩
    · rintro ⟨u2, ⟨hu2, hrole2, hvote2⟩, rfl⟩
      obtain ⟨e, hev, hk, hsome⟩ := (hasVoteIn_iff t.votes u2.id hv).mp hvote2
      refine ⟨e, ⟨hev, ?_, hsome⟩, hk⟩
      rw [List.contains, List.elem_iff, hk, playerIds, List.mem_map]
      exact ⟨u2, List.mem_filter.mpr ⟨hu2, hrole2⟩, rfl⟩

/-- **C5**: a successful vote that makes the number of players with a
non-absent vote equal the (positive) total player count performs the full
reveal in the same step: the ticket's `revealed` flag and the session's
`votingRevealed` become true, and a `votesRevealed` event carrying the
computed average and analysis is broadcast to the whole session together with
the `voteReceived` event — no separate reveal command is involved. -/
theorem claim_C5_auto_reveal (st : ServerState) (ws : Nat) (p : Nat)
    (ci : ConnInfo) (session : TeamSession) (u : User) (sid : String)
    (ticket : Ticket) (hconn : st.conns ws = some ci)
    (hsess : st.sessions ci.sessionCode = some session)
    (hfindu : session.users.find? (fun x => x.id == ci.userId) = some u)
    (hrole : u.role = Role.player)
    (hsel : session.selectedTicketId = some sid)
    (hp : p ∈ POINT_VALUES)
    (hfindt : session.tickets.find? (fun t => t.id == sid) = some ticket)
    (husers : (session.users.map User.id).Nodup)
    (hkeys : ((setVote ticket.votes ci.userId p).map (·.1)).Nodup)
    (hcount : playersVotedCount session
      { ticket with votes := setVote ticket.votes ci.userId p } =
        getPlayerCount session)
    (hpos : 0 < getPlayerCount session) :
    ∃ st2 outs session2 ticket2,
      voteHandler st ws p = some (st2, outs) ∧
      st2.sessions ci.sessionCode = some session2 ∧
      session2.votingRevealed = true ∧
      session2.tickets.find? (fun t => t.id == sid) = some ticket2 ∧
      ticket2.revealed = true ∧
      ticket2.votes = setVote ticket.votes ci.userId p ∧
      Output.broadcast ci.sessionCode
        (ServerMessage.votesRevealed ticket2 (calculateAverage ticket2)
          (analyzeVotes ticket2 session2)) none ∈ outs ∧
      (∃ vc tp, Output.broadcast ci.sessionCode
        (ServerMessage.voteReceived ticket2.id vc tp ci.userId) none ∈
          outs) := by
  have hpc : POINT_VALUES.contains p = true := by
    rw [List.contains, List.elem_iff]
    exact hp
  have hgv : getVoteCount
      { ticket with votes := setVote ticket.votes ci.userId p } session =
      getPlayerCount session :=
    (getVoteCount_eq_playersVotedCount session _ husers hkeys).trans hcount
  simp only [voteHandler, hconn, hsess, hfindu, hrole, hsel, hpc, hfindt,
    ite_true]
  split
  · have hset : ∀ v : Option TeamSession,
        setSession st.sessions ci.sessionCode v ci.sessionCode = v :=
      fun v => by rw [setSession, if_pos rfl]
    exact ⟨_, _, _, _, rfl, hset _, rfl,
      find?_updateFirstTicket _ _ _ _ (fun t => rfl)
        (find?_updateFirstTicket _ _ _ _ (fun t => rfl) hfindt),
      rfl, rfl, List.mem_cons.mpr (Or.inr (List.mem_singleton.mpr rfl)),
      ⟨_, _, List.mem_cons_self _ _⟩⟩
  · rename_i hcond
    exact absurd ⟨hgv, hpos⟩ hcond

def autoRevealDemoState : ServerState :=
  { sessions := setSession (fun _ => none) "T"
      (some { code := "T",
              users := [{ id := "p1", name := "al", role := Role.player }],
              tickets := [{ id := "t1", title := "x", description := "",
                            votes := [], revealed := false }],
              selectedTicketId := some "t1", votingRevealed := false }),
    conns := setConn (fun _ => none) 0
      (some { sessionCode := "T", userId := "p1" }) }

theorem claim_C5_auto_reveal_witness :
    ((voteHandler autoRevealDemoState 0 5).map
      (fun r => (r.1.sessions "T").map TeamSession.votingRevealed)) =
      some (some true) := by
  obtain ⟨st2, outs, session2, ticket2, hrun, hs2, hvr, hf2, hrev, hv, hm1,
      hm2⟩ :=
    claim_C5_auto_reveal autoRevealDemoState 0 5
      { sessionCode := "T", userId := "p1" }
      { code := "T",
        users := [{ id := "p1", name := "al", role := Role.player }],
        tickets := [{ id := "t1", title := "x", description := "",
                      votes := [], revealed := false }],
        selectedTicketId := some "t1", votingRevealed := false }
      { id := "p1", name := "al", role := Role.player } "t1"
      { id := "t1", title := "x", description := "", votes := [],
        revealed := false }
      (by decide) (by decide) (by decide) (by decide) (by decide) (by decide)
      (by decide) (by decide) (by decide) (by decide) (by decide)
  rw [hrun, Option.map_some']
  dsimp only at hs2 ⊢
  rw [hs2, Option.map_some', hvr]

/-! ## The averaged and the analysed vote sets (claim C10) -/

/-- A ticket whose single stored vote comes from a user who is no longer a
player in the session (here: the only user is an observer). -/
def ghostTicket : Ticket :=
  { id := "t", title := "", description := "", votes := [("ghost", some 5)],
    revealed := true }

def ghostSession : TeamSession :=
  { code := "G",
    users := [{ id := "ghost", name := "g", role := Role.observer }],
    tickets := [ghostTicket], selectedTicketId := some "t",
    votingRevealed := true }

/-- The arithmetic mean of a list of naturals, rounded to one decimal
place. -/
def roundedMean10 (values : List Nat) : ℚ :=
  (round (((values.sum : ℚ) / (values.length : ℚ)) * 10) : ℚ) / 10

/-- **C10**: the `votesRevealed` event computes its `average` from all
non-null vote entries (mean rounded to one decimal, 0 for none), while its
`analysis` is computed from only the entries whose user currently holds the
player role — so the two fields can be computed from different vote sets, as
the ghost-vote instance shows. -/
theorem claim_C10_average_vs_analysis (st : ServerState) (ws : Nat)
    (ci : ConnInfo) (session : TeamSession) (u : User) (sid : String)
    (ticket : Ticket) (hconn : st.conns ws = some ci)
    (hsess : st.sessions ci.sessionCode = some session)
    (hfindu : session.users.find? (fun x => x.id == ci.userId) = some u)
    (hrole : u.role = Role.observer)
    (hsel : session.selectedTicketId = some sid)
    (hfindt : session.tickets.find? (fun t => t.id == sid) = some ticket) :
    (∃ st2 session2,
      revealVotesHandler st ws = some (st2,
        [Output.broadcast ci.sessionCode
          (ServerMessage.votesRevealed { ticket with revealed := true }
            (calculateAverage { ticket with revealed := true })
            (analyzeVotes { ticket with revealed := true } session2))
          none]) ∧
      st2.sessions ci.sessionCode = some session2 ∧
      calculateAverage { ticket with revealed := true } =
        (if (ticket.votes.filterMap (·.2)).length = 0 then 0
         else (roundedMean10 (ticket.votes.filterMap (·.2)))) ∧
      analyzeVotes { ticket with revealed := true } session2 =
        analyzeVotesCounted
          (countedVotes { ticket with revealed := true } session2)) ∧
    calculateAverage ghostTicket = 5 ∧
    ghostTicket.votes.filterMap (·.2) = [5] ∧
    countedVotes ghostTicket ghostSession = [] ∧
    (analyzeVotes ghostTicket ghostSession).mode = none ∧
    (analyzeVotes ghostTicket ghostSession).recommendedPoint = 0 := by
  refine ⟨?_, ?_, by decide, by decide, by decide, by decide⟩
  · simp only [revealVotesHandler, hconn, hsess, hfindu, hrole, hsel, hfindt,
      ite_true]
    have hset : ∀ v : Option TeamSession,
        setSession st.sessions ci.sessionCode v ci.sessionCode = v :=
      fun v => by rw [setSession, if_pos rfl]
    refine ⟨_, _, rfl, hset _, ?_, rfl⟩
    simp only [calculateAverage, roundedMean10]
  · have h1 : calculateAverage ghostTicket =
        (round (((5 : ℚ) / 1) * 10) : ℚ) / 10 := by
      show (if ([5] : List Nat).length = 0 then (0 : ℚ)
        else (round (((([5] : List Nat).sum : ℚ) /
          (([5] : List Nat).length : ℚ)) * 10) : ℚ) / 10) = _
      norm_num
    rw [h1]
    norm_num [round_eq]


def revealDemoState : ServerState :=
  { sessions := setSession (fun _ => none) "T"
      (some { code := "T",
              users := [{ id := "o1", name := "bob", role := Role.observer }],
              tickets := [{ id := "t1", title := "x", description := "",
                            votes := [("gone", some 5)], revealed := false }],
              selectedTicketId := some "t1", votingRevealed := false }),
    conns := setConn (fun _ => none) 0
      (some { sessionCode := "T", userId := "o1" }) }

theorem claim_C10_average_vs_analysis_witness :
    ((revealVotesHandler revealDemoState 0).map (fun r => r.2.length)) =
      some 1 := by
  obtain ⟨⟨st2, session2, hrun, hs2, havg, hana⟩, -, -, -, -, -⟩ :=
    claim_C10_average_vs_analysis revealDemoState 0
      { sessionCode := "T", userId := "o1" }
      { code := "T",
        users := [{ id := "o1", name := "bob", role := Role.observer }],
        tickets := [{ id := "t1", title := "x", description := "",
                      votes := [("gone", some 5)], revealed := false }],
        selectedTicketId := some "t1", votingRevealed := false }
      { id := "o1", name := "bob", role := Role.observer } "t1"
      { id := "t1", title := "x", description := "",
        votes := [("gone", some 5)], revealed := false }
      (by decide) (by decide) (by decide) (by decide) (by decide) (by decide)
  rw [hrun, Option.map_some']
  rfl
end PonyPoker
